import Mathlib

/-!
# gost: Observation orchestration and path normalisation

A shallow embedding of `src/sensorthings/api/observation.go` (the Observation
write path, the FeatureOfInterest resolver, patch) and of
`src/http/gostserver.go` (the `LowerCaseURI` middleware).

Conventions of the embedding

* A Go result `(*T, error)` is a pair `Option T × Option Err`; `none` is the
  nil pointer, respectively the nil error.  A `[]error` is `Option (List Err)`,
  `none` being the nil slice.
* The storage engine (`models.Database`) is an interface; it is a record of
  state-passing functions over an arbitrary state type `σ`.
* Every call the code makes on a collaborator (store, standalone API method,
  notification transport) is appended, with its answer, to a trace.
* A nil-pointer dereference is the outcome `Outcome.panicked`.
* A Go string the code inspects (the request path) is the list of its bytes,
  valid UTF-8 or not; a text that is only passed on is a Lean `String`.
-/

namespace Gost

set_option linter.dupNamespace false

/-! ## Identifiers and errors -/

/-- An identifier held in an `interface{}`.  `other` stands for a value of any
further dynamic type, kept by the text `%v` prints for it. -/
inductive ID where
  | nil
  | int (n : Int)
  | str (s : String)
  | other (rendered : String)
  deriving DecidableEq, Repr

/-- `toStringID`: `fmt.Sprintf("%v", id)` (observation.go, line 198). -/
def toStringID : ID → String
  | ID.nil => "<nil>"
  | ID.int n => toString n
  | ID.str s => s
  | ID.other r => r

/-- Error values: `errors.New`, the request errors of package `gostErrors`
that observation.go builds, and `notFound` for the not-found class of that
package (never built by observation.go). -/
inductive Err where
  | new (msg : String)
  | badRequest (inner : Err)
  | conflict (inner : Err)
  | notFound (inner : Err)
  deriving DecidableEq, Repr

/-- The text of an error: the message of the innermost `errors.New`. -/
def Err.message : Err → String
  | Err.new m => m
  | Err.badRequest e => e.message
  | Err.conflict e => e.message
  | Err.notFound e => e.message

/-! ## Entities (the fields observation.go reads or writes) -/

/-- Entity `Datastream`: its identifier. -/
structure Datastream where
  ID : Gost.ID
  deriving DecidableEq, Repr

/-- Entity `Thing`: its identifier. -/
structure Thing where
  ID : Gost.ID
  deriving DecidableEq, Repr

/-- Entity `Location`; the geometry (`Location`) is carried as encoded text. -/
structure Location where
  ID : Gost.ID
  Description : String
  EncodingType : String
  Location : String
  deriving DecidableEq, Repr

/-- Entity `FeatureOfInterest`; the geometry (`Feature`) is carried as encoded
text. -/
structure FeatureOfInterest where
  ID : Gost.ID
  Description : String
  EncodingType : String
  Feature : String
  OriginalLocationID : Gost.ID
  deriving DecidableEq, Repr

/-- The zero value `entities.FeatureOfInterest{}`. -/
def FeatureOfInterest.zero : FeatureOfInterest :=
  { ID := ID.nil, Description := "", EncodingType := "", Feature := "",
    OriginalLocationID := ID.nil }

/-- Entity `Observation`; `Result` is carried as encoded text (`none` when
absent), `Links` stands for the self and navigation links. -/
structure Observation where
  ID : Gost.ID
  Result : Option String
  Datastream : Option Gost.Datastream
  FeatureOfInterest : Option Gost.FeatureOfInterest
  Links : List String
  deriving DecidableEq, Repr

/-- The assignment `observation.FeatureOfInterest = f`. -/
def Observation.setFeatureOfInterest (o : Observation) (f : Option Gost.FeatureOfInterest) :
    Observation :=
  { o with FeatureOfInterest := f }

/-- The value `&entities.FeatureOfInterest{}` after `ID = id`. -/
def FeatureOfInterest.withID (id : Gost.ID) : FeatureOfInterest :=
  { FeatureOfInterest.zero with ID := id }

/-! ## Collaborators, trace and outcomes -/

/-- One call on a collaborator together with the answer it gave. -/
inductive Call where
  | GetDatastream (id : ID) (res : Option Datastream × Option Err)
  | GetThingByDatastream (id : ID) (res : Option Thing × Option Err)
  | GetLocationsByThing (id : ID) (res : List (Option Location) × Int × Option Err)
  | GetFeatureOfInterestByLocationID (id : ID) (res : Option FeatureOfInterest × Option Err)
  | PostFeatureOfInterest (foi : FeatureOfInterest) (res : Option FeatureOfInterest × Option Err)
  | DatastreamExists (id : Int) (res : Bool)
  | PostObservation (o : Observation) (res : Option Observation × Option Err)
  | PatchObservation (id : ID) (o : Observation) (res : Option Observation × Option Err)
  | APIPostFeatureOfInterest (foi : FeatureOfInterest)
      (res : Option FeatureOfInterest × Option (List Err))
  | Publish (topic : String) (payload : String) (qos : Nat)
  deriving DecidableEq, Repr

/-- A call that asks the store (directly or through the standalone
FeatureOfInterest creation path) to create or change a resource. -/
def Call.isWrite : Call → Bool
  | Call.PostFeatureOfInterest _ _ => true
  | Call.PostObservation _ _ => true
  | Call.PatchObservation _ _ _ => true
  | Call.APIPostFeatureOfInterest _ _ => true
  | _ => false

/-- A notification publish. -/
def Call.isPublish : Call → Bool
  | Call.Publish _ _ _ => true
  | _ => false

/-- A `PostFeatureOfInterest` call on the store. -/
def Call.isPostFoi : Call → Bool
  | Call.PostFeatureOfInterest _ _ => true
  | _ => false

/-- A `PostObservation` (persist) call on the store. -/
def Call.isPersist : Call → Bool
  | Call.PostObservation _ _ => true
  | _ => false

/-- The methods of `models.Database` that observation.go calls on the write
path.  The `qo` argument is `nil` at every call site modelled and is left out. -/
structure Database (σ : Type) where
  GetDatastream : ID → σ → (Option Datastream × Option Err) × σ
  GetThingByDatastream : ID → σ → (Option Thing × Option Err) × σ
  GetLocationsByThing : ID → σ → (List (Option Location) × Int × Option Err) × σ
  GetFeatureOfInterestByLocationID : ID → σ → (Option FeatureOfInterest × Option Err) × σ
  PostFeatureOfInterest : FeatureOfInterest → σ → (Option FeatureOfInterest × Option Err) × σ
  DatastreamExists : Int → σ → Bool × σ
  PostObservation : Observation → σ → (Option Observation × Option Err) × σ
  PatchObservation : ID → Observation → σ → (Option Observation × Option Err) × σ

/-- The state of the collaborators and the calls made on them so far. -/
structure World (σ : Type) where
  st : σ
  trace : List Call

/-- Result of running a Go function: it returns, or it panics on a nil
pointer. -/
inductive Outcome (α : Type) where
  | returned (a : α)
  | panicked
  deriving DecidableEq, Repr

/-- Perform one collaborator call: run it on the state and log it with its
answer. -/
def invoke {σ α : Type} (mk : α → Call) (f : σ → α × σ) (w : World σ) : α × World σ :=
  ((f w.st).1, { st := (f w.st).2, trace := w.trace ++ [mk (f w.st).1] })

/-- Log a notification publish (`a.mqtt.Publish`); the transport is
fire-and-forget and gives no answer. -/
def publish {σ : Type} (topic payload : String) (qos : Nat) (w : World σ) : World σ :=
  { w with trace := w.trace ++ [Call.Publish topic payload qos] }

/-! ## The FeatureOfInterest resolver -/

/-- `GetLocationByDatastreamID` (observation.go, lines 85-105). -/
def GetLocationByDatastreamID {σ : Type} (db : Database σ) (datastreamID : ID)
    (w : World σ) : Outcome (Option Location × Option Err) × World σ :=
  let dID := ID.str (toStringID datastreamID)
  let r1 := invoke (Call.GetDatastream dID) (db.GetDatastream dID) w
  match r1.1.2 with
  | some _ => (Outcome.returned (none, some (Err.new "Datastream not found")), r1.2)
  | none =>
    let r2 := invoke (Call.GetThingByDatastream dID) (db.GetThingByDatastream dID) r1.2
    match r2.1.2 with
    | some _ => (Outcome.returned (none, some (Err.new "Thing by datastream not found")), r2.2)
    | none =>
      match r2.1.1 with
      | none => (Outcome.panicked, r2.2)
      | some thing =>
        let r3 := invoke (Call.GetLocationsByThing thing.ID) (db.GetLocationsByThing thing.ID) r2.2
        match r3.1.2.2, r3.1.1 with
        | some e, _ => (Outcome.returned (none, some e), r3.2)
        | none, [] => (Outcome.returned (none, none), r3.2)
        | none, l0 :: _ => (Outcome.returned (l0, none), r3.2)

/-- `ConvertLocationToFoi` (observation.go, lines 108-115). -/
def ConvertLocationToFoi (l : Location) : FeatureOfInterest :=
  { FeatureOfInterest.zero with
    Description := l.Description
    EncodingType := l.EncodingType
    Feature := l.Location
    OriginalLocationID := l.ID }

/-- `CopyLocationToFoi` (observation.go, lines 119-144).  The error of
`GetLocationByDatastreamID` and the error of
`GetFeatureOfInterestByLocationID` are discarded, as in the source. -/
def CopyLocationToFoi {σ : Type} (db : Database σ) (datastreamID : ID)
    (w : World σ) : Outcome (String × Option Err) × World σ :=
  let r0 := GetLocationByDatastreamID db datastreamID w
  match r0.1 with
  | Outcome.panicked => (Outcome.panicked, r0.2)
  | Outcome.returned (some l, _) =>
    let r1 := invoke (Call.GetFeatureOfInterestByLocationID l.ID)
      (db.GetFeatureOfInterestByLocationID l.ID) r0.2
    match r1.1.1 with
    | none =>
      let NewFeatureOfInterest := ConvertLocationToFoi l
      let r2 := invoke (Call.PostFeatureOfInterest NewFeatureOfInterest)
        (db.PostFeatureOfInterest NewFeatureOfInterest) r1.2
      match r2.1.2 with
      | some err => (Outcome.returned ("", some err), r2.2)
      | none =>
        match r2.1.1 with
        | none => (Outcome.panicked, r2.2)
        | some CreatedFeatureOfInterest =>
          (Outcome.returned (toStringID CreatedFeatureOfInterest.ID, none), r2.2)
    | some featureOfInterest =>
      (Outcome.returned (toStringID featureOfInterest.ID, none), r1.2)
  | Outcome.returned (none, _) =>
    (Outcome.returned
      ("", some (Err.conflict (Err.new "No location found for datastream.Thing"))), r0.2)

/-! ## The Observation write path -/

/-- What `APIv1` holds and what observation.go takes from other packages:
the store, the configured external address, `Observation.ContainsMandatoryParams`
(its `[]error` result), `postgis.ToIntID`, the standalone
`APIv1.PostFeatureOfInterest`, `Observation.SetAllLinks` and `json.Marshal`
(as the text it yields). -/
structure APIv1 (σ : Type) where
  db : Database σ
  GetExternalServerURI : String
  ContainsMandatoryParams : Observation → Option (List Err)
  ToIntID : ID → Int × Bool
  PostFeatureOfInterest : FeatureOfInterest → σ →
    (Option FeatureOfInterest × Option (List Err)) × σ
  SetAllLinks : String → Observation → Observation
  Marshal : Observation → String

/-- The three-way FeatureOfInterest branch of `PostObservation`
(observation.go, lines 162-179): the errors to return, or the Observation to
persist. -/
def resolveFeatureOfInterest {σ : Type} (a : APIv1 σ) (observation : Observation)
    (datastreamID : ID) (w : World σ) :
    Outcome (Except (List Err) Observation) × World σ :=
  match observation.FeatureOfInterest with
  | none =>
    let r := CopyLocationToFoi a.db (ID.str (toStringID datastreamID)) w
    match r.1 with
    | Outcome.panicked => (Outcome.panicked, r.2)
    | Outcome.returned (_, some _) =>
      (Outcome.returned (Except.error [Err.badRequest
        (Err.new "Unable to copy location of thing to featureofinterest.")]), r.2)
    | Outcome.returned (foiID, none) =>
      (Outcome.returned (Except.ok (observation.setFeatureOfInterest
        (some (FeatureOfInterest.withID (ID.str foiID))))), r.2)
  | some f =>
    if f.ID = ID.nil then
      let r := invoke (Call.APIPostFeatureOfInterest f) (a.PostFeatureOfInterest f) w
      match r.1.2 with
      | some _ =>
        (Outcome.returned (Except.error [Err.conflict
          (Err.new "Unable to create deep inserted FeatureOfInterest")]), r.2)
      | none => (Outcome.returned (Except.ok (observation.setFeatureOfInterest r.1.1)), r.2)
    else (Outcome.returned (Except.ok observation), w)

/-- The tail of `PostObservation` (observation.go, lines 181-195): persist,
attach links, publish twice. -/
def persistAndPublish {σ : Type} (a : APIv1 σ) (observation : Observation)
    (datastreamID : ID) (w : World σ) :
    Outcome (Option Observation × Option (List Err)) × World σ :=
  let r := invoke (Call.PostObservation observation) (a.db.PostObservation observation) w
  match r.1.2 with
  | some err2 => (Outcome.returned (none, some [err2]), r.2)
  | none =>
    match r.1.1 with
    | none => (Outcome.panicked, r.2)
    | some no =>
      let no := a.SetAllLinks a.GetExternalServerURI no
      let s := a.Marshal no
      let w1 := publish ("Datastreams(" ++ toStringID datastreamID ++ ")/Observations") s 0 r.2
      let w2 := publish "Observations" s 0 w1
      (Outcome.returned (some no, none), w2)

/-- `APIv1.PostObservation` (observation.go, lines 147-196). -/
def PostObservation {σ : Type} (a : APIv1 σ) (observation : Observation) (w : World σ) :
    Outcome (Option Observation × Option (List Err)) × World σ :=
  match a.ContainsMandatoryParams observation with
  | some err => (Outcome.returned (none, some err), w)
  | none =>
    match observation.Datastream with
    | none => (Outcome.panicked, w)
    | some d =>
      let datastreamID := d.ID
      let intID := (a.ToIntID datastreamID).1
      let r := invoke (Call.DatastreamExists intID) (a.db.DatastreamExists intID) w
      if r.1 = false then
        (Outcome.returned (none, some [Err.badRequest
          (Err.new ("Datastream " ++ toString intID ++ " does not exist."))]), r.2)
      else
        let r1 := resolveFeatureOfInterest a observation datastreamID r.2
        match r1.1 with
        | Outcome.panicked => (Outcome.panicked, r1.2)
        | Outcome.returned (Except.error errs) => (Outcome.returned (none, some errs), r1.2)
        | Outcome.returned (Except.ok observation) =>
          persistAndPublish a observation datastreamID r1.2

/-- `APIv1.PatchObservation` (observation.go, lines 211-217). -/
def PatchObservation {σ : Type} (a : APIv1 σ) (id : ID) (observation : Observation)
    (w : World σ) : (Option Observation × Option Err) × World σ :=
  if observation.Datastream ≠ none ∨ observation.FeatureOfInterest ≠ none then
    ((none, some (Err.badRequest (Err.new "Unable to deep patch Observation"))), w)
  else
    invoke (Call.PatchObservation id observation) (a.db.PatchObservation id observation) w

/-! ## A sequential store -/

/-- The behaviour of a sequential store that the reuse of a derived
FeatureOfInterest relies on: lookups leave the state alone, an insert of a
FeatureOfInterest or of an Observation does not disturb what the Datastream,
Thing and Location lookups answer, an Observation insert does not disturb the
lookup by origin-location reference, and a FeatureOfInterest inserted while no
FeatureOfInterest was found for its origin-location reference is found by that
lookup afterwards. -/
structure SequentialStore {σ : Type} (db : Database σ) : Prop where
  exists_ro : ∀ n s, (db.DatastreamExists n s).2 = s
  datastream_ro : ∀ id s, (db.GetDatastream id s).2 = s
  thing_ro : ∀ id s, (db.GetThingByDatastream id s).2 = s
  locations_ro : ∀ id s, (db.GetLocationsByThing id s).2 = s
  foi_ro : ∀ id s, (db.GetFeatureOfInterestByLocationID id s).2 = s
  postFoi_frame : ∀ foi s,
    (∀ n, (db.DatastreamExists n (db.PostFeatureOfInterest foi s).2).1
            = (db.DatastreamExists n s).1)
    ∧ (∀ id, (db.GetDatastream id (db.PostFeatureOfInterest foi s).2).1
            = (db.GetDatastream id s).1)
    ∧ (∀ id, (db.GetThingByDatastream id (db.PostFeatureOfInterest foi s).2).1
            = (db.GetThingByDatastream id s).1)
    ∧ (∀ id, (db.GetLocationsByThing id (db.PostFeatureOfInterest foi s).2).1
            = (db.GetLocationsByThing id s).1)
  postObservation_frame : ∀ o s,
    (∀ n, (db.DatastreamExists n (db.PostObservation o s).2).1
            = (db.DatastreamExists n s).1)
    ∧ (∀ id, (db.GetDatastream id (db.PostObservation o s).2).1
            = (db.GetDatastream id s).1)
    ∧ (∀ id, (db.GetThingByDatastream id (db.PostObservation o s).2).1
            = (db.GetThingByDatastream id s).1)
    ∧ (∀ id, (db.GetLocationsByThing id (db.PostObservation o s).2).1
            = (db.GetLocationsByThing id s).1)
    ∧ (∀ id, (db.GetFeatureOfInterestByLocationID id (db.PostObservation o s).2).1
            = (db.GetFeatureOfInterestByLocationID id s).1)
  inserted_found : ∀ foi s c,
    (db.PostFeatureOfInterest foi s).1 = (some c, none) →
    (db.GetFeatureOfInterestByLocationID foi.OriginalLocationID s).1.1 = none →
    ∃ c', (db.GetFeatureOfInterestByLocationID foi.OriginalLocationID
              (db.PostFeatureOfInterest foi s).2).1.1 = some c'
          ∧ c'.ID = c.ID

/-- Modelled from the spec: the storage engine (package `postgis`, not among
the sources), as a sequential in-memory store.  Datastreams are kept with their
owning Thing under the text of their identifier, Locations under the text of
their Thing's identifier in storage order; inserted resources get the next
free integer identifier. -/
structure MemStore where
  datastreams : List (String × Thing)
  locations : List (String × Location)
  fois : List FeatureOfInterest
  observations : List Observation
  deriving DecidableEq, Repr

/-- The in-memory store's operations. -/
def memDb : Database MemStore where
  GetDatastream := fun id s =>
    match s.datastreams.lookup (toStringID id) with
    | some _ => ((some { ID := id }, none), s)
    | none => ((none, some (Err.notFound (Err.new "Datastream not found"))), s)
  GetThingByDatastream := fun id s =>
    match s.datastreams.lookup (toStringID id) with
    | some t => ((some t, none), s)
    | none => ((none, some (Err.notFound (Err.new "Thing not found"))), s)
  GetLocationsByThing := fun id s =>
    let ls := (s.locations.filter (fun p => p.1 = toStringID id)).map (fun p => some p.2)
    ((ls, (ls.length : Int), none), s)
  GetFeatureOfInterestByLocationID := fun id s =>
    match s.fois.find? (fun f => decide (f.OriginalLocationID = id)) with
    | some f => ((some f, none), s)
    | none => ((none, some (Err.notFound (Err.new "FeatureOfInterest not found"))), s)
  PostFeatureOfInterest := fun foi s =>
    let c : FeatureOfInterest := { foi with ID := ID.int (s.fois.length + 1) }
    ((some c, none), { s with fois := s.fois ++ [c] })
  DatastreamExists := fun n s => ((s.datastreams.lookup (toString n)).isSome, s)
  PostObservation := fun o s =>
    let c : Observation := { o with ID := ID.int (s.observations.length + 1) }
    ((some c, none), { s with observations := s.observations ++ [c] })
  PatchObservation := fun id o s =>
    match s.observations.find? (fun x => decide (toStringID x.ID = toStringID id)) with
    | none => ((none, some (Err.notFound (Err.new "Observation not found"))), s)
    | some x =>
      let c : Observation := { x with Result := if o.Result.isSome then o.Result else x.Result }
      let patched := s.observations.map
        (fun y => if toStringID y.ID = toStringID id then c else y)
      ((some c, none), { s with observations := patched })

/-- Modelled from the spec: the mandatory-field check
(`Observation.ContainsMandatoryParams`, package `entities`, not among the
sources): result payload and Datastream reference present, every missing field
listed. -/
def memContainsMandatoryParams (o : Observation) : Option (List Err) :=
  let errs :=
    (if o.Result.isNone then [Err.new "Missing mandatory parameter: Observation.result"]
      else [])
    ++ (if o.Datastream.isNone then [Err.new "Missing mandatory parameter: Observation.Datastream"]
      else [])
  if errs.isEmpty then none else some errs

/-- An API over the in-memory store.  `ToIntID` is given on integer
identifiers; the standalone FeatureOfInterest creation inserts into the store;
links and serialization are short texts built from the identifier. -/
def memAPI : APIv1 MemStore where
  db := memDb
  GetExternalServerURI := "http://localhost:8080"
  ContainsMandatoryParams := memContainsMandatoryParams
  ToIntID := fun id =>
    match id with
    | ID.int n => (n, true)
    | _ => (0, false)
  PostFeatureOfInterest := fun f s =>
    (((memDb.PostFeatureOfInterest f s).1.1, none), (memDb.PostFeatureOfInterest f s).2)
  SetAllLinks := fun uri o =>
    { o with Links := [uri ++ "/v1.0/Observations(" ++ toStringID o.ID ++ ")"] }
  Marshal := fun o => "Observation(" ++ toStringID o.ID ++ ")"

/-- The Location of the end-to-end scenario: identifier 3, geometry
`POINT(5 52)`. -/
def roofLocation : Location :=
  { ID := ID.int 3, Description := "roof", EncodingType := "application/vnd.geo+json",
    Location := "POINT(5 52)" }

/-- A store holding Datastream 7 of Thing 1, whose only Location is
`roofLocation`; no FeatureOfInterest, no Observation. -/
def scenarioStore : MemStore :=
  { datastreams := [("7", { ID := ID.int 1 })],
    locations := [("1", roofLocation)],
    fois := [],
    observations := [] }

/-- The scenario store with a FeatureOfInterest already derived from
`roofLocation`. -/
def scenarioStoreWithFoi : MemStore :=
  { scenarioStore with
    fois := [{ ID := ID.int 1, Description := "roof",
               EncodingType := "application/vnd.geo+json", Feature := "POINT(5 52)",
               OriginalLocationID := ID.int 3 }] }

/-- The scenario store with the Location of Thing 1 removed. -/
def scenarioStoreNoLocation : MemStore :=
  { scenarioStore with locations := [] }

/-- A world over a store with nothing called yet. -/
def freshWorld {σ : Type} (s : σ) : World σ :=
  { st := s, trace := [] }

/-- The Observation of the end-to-end scenario: result 21.5 on Datastream 7,
no FeatureOfInterest. -/
def scenarioObservation : Observation :=
  { ID := ID.nil, Result := some "21.5", Datastream := some { ID := ID.int 7 },
    FeatureOfInterest := none, Links := [] }

/-- The scenario Observation without its result payload. -/
def observationWithoutResult : Observation :=
  { scenarioObservation with Result := none }

/-- A patch payload that only carries a result. -/
def resultPatch : Observation :=
  { ID := ID.nil, Result := some "22.0", Datastream := none, FeatureOfInterest := none,
    Links := [] }

/-! ## Path normalisation (gostserver.go) -/

/-- A Go string: its bytes, each a number below 256. -/
abbrev GoString := List Nat

/-- `utf8.RuneError`, the replacement character U+FFFD. -/
def RuneError : Nat := 0xFFFD

/-- `utf8.AppendRune`: the UTF-8 encoding of a rune; a surrogate or a value
above U+10FFFF is written as `RuneError`. -/
def encodeRune (r : Nat) : GoString :=
  if r ≤ 0x7F then [r]
  else if r ≤ 0x7FF then [0xC0 + r / 64, 0x80 + r % 64]
  else if 0x10FFFF < r ∨ (0xD800 ≤ r ∧ r ≤ 0xDFFF) then [0xEF, 0xBF, 0xBD]
  else if r ≤ 0xFFFF then [0xE0 + r / 4096, 0x80 + r / 64 % 64, 0x80 + r % 64]
  else [0xF0 + r / 262144, 0x80 + r / 4096 % 64, 0x80 + r / 64 % 64, 0x80 + r % 64]

/-- The bytes of a text, as the Go compiler stores a string literal. -/
def goString (s : String) : GoString :=
  s.data.flatMap (fun c => encodeRune c.toNat)

/-- The tail of `utf8.DecodeRuneInString` for a lead byte of a two-byte
sequence. -/
def decode2 (s0 : Nat) : GoString → Nat × Nat
  | s1 :: _ =>
    if 0x80 ≤ s1 ∧ s1 ≤ 0xBF then (s0 % 32 * 64 + s1 % 64, 2) else (RuneError, 1)
  | [] => (RuneError, 1)

/-- The tail of `utf8.DecodeRuneInString` for a lead byte of a three-byte
sequence whose second byte must lie in `lo..hi`. -/
def decode3 (s0 lo hi : Nat) : GoString → Nat × Nat
  | s1 :: s2 :: _ =>
    if lo ≤ s1 ∧ s1 ≤ hi ∧ 0x80 ≤ s2 ∧ s2 ≤ 0xBF then
      (s0 % 16 * 4096 + s1 % 64 * 64 + s2 % 64, 3)
    else (RuneError, 1)
  | _ => (RuneError, 1)

/-- The tail of `utf8.DecodeRuneInString` for a lead byte of a four-byte
sequence whose second byte must lie in `lo..hi`. -/
def decode4 (s0 lo hi : Nat) : GoString → Nat × Nat
  | s1 :: s2 :: s3 :: _ =>
    if lo ≤ s1 ∧ s1 ≤ hi ∧ 0x80 ≤ s2 ∧ s2 ≤ 0xBF ∧ 0x80 ≤ s3 ∧ s3 ≤ 0xBF then
      (s0 % 8 * 262144 + s1 % 64 * 4096 + s2 % 64 * 64 + s3 % 64, 4)
    else (RuneError, 1)
  | _ => (RuneError, 1)

/-- `utf8.DecodeRuneInString`: the first rune of a string and the number of
bytes it takes; a byte that starts no valid encoding is `RuneError` of width 1.
The lead-byte classes and the ranges of the second byte are those of the tables
`first` and `acceptRanges`. -/
def decodeRune : GoString → Nat × Nat
  | [] => (RuneError, 0)
  | s0 :: rest =>
    if s0 < 0x80 then (s0, 1)
    else if 0xC2 ≤ s0 ∧ s0 ≤ 0xDF then decode2 s0 rest
    else if s0 = 0xE0 then decode3 s0 0xA0 0xBF rest
    else if s0 = 0xED then decode3 s0 0x80 0x9F rest
    else if 0xE1 ≤ s0 ∧ s0 ≤ 0xEF then decode3 s0 0x80 0xBF rest
    else if s0 = 0xF0 then decode4 s0 0x90 0xBF rest
    else if s0 = 0xF4 then decode4 s0 0x80 0x8F rest
    else if 0xF1 ≤ s0 ∧ s0 ≤ 0xF3 then decode4 s0 0x80 0xBF rest
    else (RuneError, 1)

/-- An entry of `unicode.CaseRanges`: the runes `Lo..Hi` and the deltas to
their upper, lower and title case. -/
structure CaseRange where
  Lo : Nat
  Hi : Nat
  Delta : Int × Int × Int
  deriving DecidableEq, Repr

/-- `unicode.MaxRune`. -/
def MaxRune : Int := 0x10FFFF

/-- `unicode.UpperLower`: the delta that marks an alternating upper/lower
sequence. -/
def UpperLower : Int := MaxRune + 1

/-- `unicode.To(unicode.LowerCase, r)` over the table `caseRanges`: the range
holding `r` decides; in an alternating sequence the lower-case letter is the one
at the odd offset.  The table is sorted with disjoint ranges, so the binary
search of the library finds the one range that holds `r`. -/
def toLowerCase (caseRanges : List CaseRange) (r : Nat) : Int :=
  match caseRanges.find? (fun cr => decide (cr.Lo ≤ r ∧ r ≤ cr.Hi)) with
  | none => r
  | some cr =>
    if cr.Delta.2.1 > MaxRune then ((cr.Lo + ((r - cr.Lo) / 2 * 2 + 1) : Nat) : Int)
    else (r : Int) + cr.Delta.2.1

/-- The lower case of an ASCII byte: `A`..`Z` gain 32. -/
def asciiLower (b : Nat) : Nat :=
  if 65 ≤ b ∧ b ≤ 90 then b + 32 else b

/-- `unicode.ToLower`: the ASCII rule up to `MaxASCII`, the case table above. -/
def unicodeToLower (caseRanges : List CaseRange) (r : Nat) : Int :=
  if r ≤ 0x7F then (asciiLower r : Nat) else toLowerCase caseRanges r

/-- What `strings.Map` writes for a mapped rune: nothing for a negative one,
one byte below `utf8.RuneSelf`, the encoding otherwise. -/
def writeRune (r : Int) : GoString :=
  if r < 0 then [] else if r < 0x80 then [r.toNat] else encodeRune r.toNat

/-- The loop of `strings.Map`: decode a rune, write its image, go on behind it.
`fuel` bounds the number of runes; the length of the string is enough. -/
def mapRunes (mapping : Nat → Int) : Nat → GoString → GoString
  | 0, _ => []
  | _ + 1, [] => []
  | fuel + 1, b :: s =>
    writeRune (mapping (decodeRune (b :: s)).1)
      ++ mapRunes mapping fuel ((b :: s).drop (decodeRune (b :: s)).2)

/-- `strings.Map`: every rune replaced by its image, every byte that is not
valid UTF-8 by the image of `RuneError` (the library copies an unchanged valid
prefix as it is, which is what re-encoding its runes gives). -/
def stringsMap (mapping : Nat → Int) (s : GoString) : GoString :=
  mapRunes mapping s.length s

/-- `strings.ToLower`: a string of ASCII bytes only has its letters `A`..`Z`
lowered byte by byte; any other string goes through
`strings.Map(unicode.ToLower, s)`. -/
def stringsToLower (caseRanges : List CaseRange) (s : GoString) : GoString :=
  if s.all (fun b => decide (b < 0x80)) then s.map asciiLower
  else stringsMap (unicodeToLower caseRanges) s

/-- `strings.Contains`: `substr` occurs in `s` as a contiguous run of bytes. -/
def stringsContains (s substr : GoString) : Bool :=
  decide (substr <:+: s)

/-- The part of `url.URL` the middleware touches, and the query beside it. -/
structure URL where
  Path : GoString
  RawQuery : String
  deriving DecidableEq, Repr

/-- The part of `http.Request` the middleware touches, and the method beside
it. -/
structure Request where
  Method : String
  URL : Gost.URL
  deriving DecidableEq, Repr

/-- An `http.Handler`: what `ServeHTTP(w, r)` does to the response writer and
everything else it can reach, `ω`. -/
abbrev Handler (ω : Type) := Request → ω → ω

/-- `GostServer.LowerCaseURI` (gostserver.go, lines 70-108); `caseRanges` is
the case table of package `unicode` that `strings.ToLower` reads. -/
def LowerCaseURI {ω : Type} (caseRanges : List CaseRange) (h : Handler ω) : Handler ω :=
  fun r w =>
    if stringsContains (stringsToLower caseRanges r.URL.Path) (goString "dashboard") then
      h r w
    else
      let lowerCasePath := stringsToLower caseRanges r.URL.Path
      h { r with URL := { r.URL with Path := lowerCasePath } } w

/-- A handler that only records the requests it is served, in order. -/
def recordingHandler : Handler (List Request) :=
  fun r served => served ++ [r]

/-- The path contains the text `dashboard` in some casing of its letters: a
contiguous run of bytes that becomes `dashboard` when `A`..`Z` are lowered. -/
def containsDashboardAnyCasing (p : GoString) : Prop :=
  ∃ q : GoString, q <:+: p ∧ q.map asciiLower = goString "dashboard"

/-- The path has a segment (a run between `/` bytes) that is `dashboard` in
some casing of its letters. -/
def hasDashboardSegment (p : GoString) : Bool :=
  (p.splitOn 47).any (fun seg => decide (seg.map asciiLower = goString "dashboard"))

/-- The case table never takes a rune above ASCII to a negative value or to a
letter of `dashboard` (in Unicode only `A`..`Z` lower to those letters). -/
def KeepsDashboardLetters (caseRanges : List CaseRange) : Prop :=
  ∀ c : Nat, 0x80 ≤ c →
    0 ≤ unicodeToLower caseRanges c
    ∧ ∀ y ∈ goString "dashboard", unicodeToLower caseRanges c ≠ (y : Int)

/-- The first entries of `unicode.CaseRanges` (ASCII, Latin-1 Supplement, the
start of Latin Extended-A) followed by the entry of the Kelvin sign. -/
def caseRangesExcerpt : List CaseRange :=
  [{ Lo := 0x0041, Hi := 0x005A, Delta := (0, 32, 0) },
   { Lo := 0x0061, Hi := 0x007A, Delta := (-32, 0, -32) },
   { Lo := 0x00B5, Hi := 0x00B5, Delta := (743, 0, 743) },
   { Lo := 0x00C0, Hi := 0x00D6, Delta := (0, 32, 0) },
   { Lo := 0x00D8, Hi := 0x00DE, Delta := (0, 32, 0) },
   { Lo := 0x00E0, Hi := 0x00F6, Delta := (-32, 0, -32) },
   { Lo := 0x00F8, Hi := 0x00FE, Delta := (-32, 0, -32) },
   { Lo := 0x00FF, Hi := 0x00FF, Delta := (121, 0, 121) },
   { Lo := 0x0100, Hi := 0x012F, Delta := (UpperLower, UpperLower, UpperLower) },
   { Lo := 0x0130, Hi := 0x0130, Delta := (0, -199, 0) },
   { Lo := 0x212A, Hi := 0x212A, Delta := (0, -8383, 0) }]

/-- What a decoded non-ASCII block looks like: at least one byte wide, a rune
above ASCII, and no ASCII byte among the bytes taken. -/
def Block (s : GoString) (d : Nat × Nat) : Prop :=
  1 ≤ d.2 ∧ 0x80 ≤ d.1 ∧ ∀ y ∈ s.take d.2, 0x80 ≤ y

/-! ## Theorems: patch -/

/-- C2: `PatchObservation` answers with the bad-request error "Unable to deep
patch Observation" and leaves the world (store state and call trace) untouched
exactly when the payload carries a Datastream or a FeatureOfInterest; in the
other case its result is the store's `PatchObservation` result on the same id
and payload, reached by that single store call. -/
theorem PatchObservation_deep_patch_iff {σ : Type} (a : APIv1 σ) (id : ID)
    (o : Observation) (w : World σ) :
    (PatchObservation a id o w
        = ((none, some (Err.badRequest (Err.new "Unable to deep patch Observation"))), w)
      ↔ (o.Datastream ≠ none ∨ o.FeatureOfInterest ≠ none))
    ∧ (¬ (o.Datastream ≠ none ∨ o.FeatureOfInterest ≠ none) →
        (PatchObservation a id o w).1 = (a.db.PatchObservation id o w.st).1
        ∧ (PatchObservation a id o w).2.st = (a.db.PatchObservation id o w.st).2
        ∧ (PatchObservation a id o w).2.trace
            = w.trace ++ [Call.PatchObservation id o (a.db.PatchObservation id o w.st).1]) := by
  constructor
  · constructor
    · intro h
      by_contra hn
      have ht := congrArg (fun r => r.2.trace.length) h
      simp [PatchObservation, hn, invoke] at ht
    · intro h
      simp [PatchObservation, h]
  · intro hn
    simp [PatchObservation, hn, invoke]


/-! ## Theorems: the resolver -/

/-- C3: when the Datastream and its Thing are found, the Thing's Location list
starts with a Location, and the lookup by origin-location reference answers with
an existing FeatureOfInterest for that Location's identifier, `CopyLocationToFoi`
returns that FeatureOfInterest's identifier with no error after exactly the four
lookups, none of which is a `PostFeatureOfInterest` (or any other write). -/
theorem CopyLocationToFoi_reuses_existing {σ : Type} (db : Database σ) (datastreamID : ID)
    (w : World σ) (d : Option Datastream) (thing : Thing) (l : Location)
    (rest : List (Option Location)) (cnt : Int) (foi : FeatureOfInterest) (e : Option Err)
    (s1 s2 s3 s4 : σ)
    (hD : db.GetDatastream (ID.str (toStringID datastreamID)) w.st = ((d, none), s1))
    (hT : db.GetThingByDatastream (ID.str (toStringID datastreamID)) s1
            = ((some thing, none), s2))
    (hL : db.GetLocationsByThing thing.ID s2 = ((some l :: rest, cnt, none), s3))
    (hF : db.GetFeatureOfInterestByLocationID l.ID s3 = ((some foi, e), s4)) :
    (CopyLocationToFoi db datastreamID w).1 = Outcome.returned (toStringID foi.ID, none)
    ∧ (CopyLocationToFoi db datastreamID w).2.st = s4
    ∧ (CopyLocationToFoi db datastreamID w).2.trace = w.trace ++
        [Call.GetDatastream (ID.str (toStringID datastreamID)) (d, none),
         Call.GetThingByDatastream (ID.str (toStringID datastreamID)) (some thing, none),
         Call.GetLocationsByThing thing.ID (some l :: rest, cnt, none),
         Call.GetFeatureOfInterestByLocationID l.ID (some foi, e)]
    ∧ ∀ c ∈ (CopyLocationToFoi db datastreamID w).2.trace.drop w.trace.length,
        c.isPostFoi = false ∧ c.isWrite = false := by
  have hrun : CopyLocationToFoi db datastreamID w
      = (Outcome.returned (toStringID foi.ID, none),
         { st := s4, trace := w.trace ++
            [Call.GetDatastream (ID.str (toStringID datastreamID)) (d, none),
             Call.GetThingByDatastream (ID.str (toStringID datastreamID)) (some thing, none),
             Call.GetLocationsByThing thing.ID (some l :: rest, cnt, none),
             Call.GetFeatureOfInterestByLocationID l.ID (some foi, e)] }) := by
    simp [CopyLocationToFoi, GetLocationByDatastreamID, invoke, hD, hT, hL, hF]
  rw [hrun]
  refine ⟨rfl, rfl, rfl, ?_⟩
  intro c hc
  simp at hc
  rcases hc with h | h | h | h <;> subst h <;> exact ⟨rfl, rfl⟩

/-- C4: when the Datastream and its Thing are found, the Thing's Location list
starts with a Location, no FeatureOfInterest is found for that Location's
identifier, and the store accepts the insert, `CopyLocationToFoi` makes exactly
one `PostFeatureOfInterest` call, its argument being `ConvertLocationToFoi` of
that Location (origin-location reference, description, encoding type and
geometry taken from the Location), and returns the identifier of the
FeatureOfInterest the store answered with. -/
theorem CopyLocationToFoi_creates_one {σ : Type} (db : Database σ) (datastreamID : ID)
    (w : World σ) (d : Option Datastream) (thing : Thing) (l : Location)
    (rest : List (Option Location)) (cnt : Int) (created : FeatureOfInterest)
    (e : Option Err) (s1 s2 s3 s4 s5 : σ)
    (hD : db.GetDatastream (ID.str (toStringID datastreamID)) w.st = ((d, none), s1))
    (hT : db.GetThingByDatastream (ID.str (toStringID datastreamID)) s1
            = ((some thing, none), s2))
    (hL : db.GetLocationsByThing thing.ID s2 = ((some l :: rest, cnt, none), s3))
    (hF : db.GetFeatureOfInterestByLocationID l.ID s3 = ((none, e), s4))
    (hP : db.PostFeatureOfInterest (ConvertLocationToFoi l) s4 = ((some created, none), s5)) :
    (CopyLocationToFoi db datastreamID w).1 = Outcome.returned (toStringID created.ID, none)
    ∧ (CopyLocationToFoi db datastreamID w).2.st = s5
    ∧ (CopyLocationToFoi db datastreamID w).2.trace = w.trace ++
        [Call.GetDatastream (ID.str (toStringID datastreamID)) (d, none),
         Call.GetThingByDatastream (ID.str (toStringID datastreamID)) (some thing, none),
         Call.GetLocationsByThing thing.ID (some l :: rest, cnt, none),
         Call.GetFeatureOfInterestByLocationID l.ID (none, e),
         Call.PostFeatureOfInterest (ConvertLocationToFoi l) (some created, none)]
    ∧ ((CopyLocationToFoi db datastreamID w).2.trace.drop w.trace.length).filter Call.isPostFoi
        = [Call.PostFeatureOfInterest (ConvertLocationToFoi l) (some created, none)]
    ∧ (ConvertLocationToFoi l).OriginalLocationID = l.ID
    ∧ (ConvertLocationToFoi l).Description = l.Description
    ∧ (ConvertLocationToFoi l).EncodingType = l.EncodingType
    ∧ (ConvertLocationToFoi l).Feature = l.Location := by
  have hrun : CopyLocationToFoi db datastreamID w
      = (Outcome.returned (toStringID created.ID, none),
         { st := s5, trace := w.trace ++
            [Call.GetDatastream (ID.str (toStringID datastreamID)) (d, none),
             Call.GetThingByDatastream (ID.str (toStringID datastreamID)) (some thing, none),
             Call.GetLocationsByThing thing.ID (some l :: rest, cnt, none),
             Call.GetFeatureOfInterestByLocationID l.ID (none, e),
             Call.PostFeatureOfInterest (ConvertLocationToFoi l) (some created, none)] }) := by
    simp [CopyLocationToFoi, GetLocationByDatastreamID, invoke, hD, hT, hL, hF, hP]
  rw [hrun]
  refine ⟨rfl, rfl, rfl, ?_, rfl, rfl, rfl, rfl⟩
  simp [Call.isPostFoi]

/-- C6: when the Datastream and its Thing are found but the Thing's Location
list is empty, `CopyLocationToFoi` returns the empty identifier together with
an error after exactly the three lookups; no `PostFeatureOfInterest` (nor any
other write) is made. -/
theorem CopyLocationToFoi_no_location {σ : Type} (db : Database σ) (datastreamID : ID)
    (w : World σ) (d : Option Datastream) (thing : Thing) (cnt : Int) (e : Option Err)
    (s1 s2 s3 : σ)
    (hD : db.GetDatastream (ID.str (toStringID datastreamID)) w.st = ((d, none), s1))
    (hT : db.GetThingByDatastream (ID.str (toStringID datastreamID)) s1
            = ((some thing, none), s2))
    (hL : db.GetLocationsByThing thing.ID s2 = (([], cnt, e), s3)) :
    (CopyLocationToFoi db datastreamID w).1 = Outcome.returned
        ("", some (Err.conflict (Err.new "No location found for datastream.Thing")))
    ∧ (CopyLocationToFoi db datastreamID w).2.st = s3
    ∧ (CopyLocationToFoi db datastreamID w).2.trace = w.trace ++
        [Call.GetDatastream (ID.str (toStringID datastreamID)) (d, none),
         Call.GetThingByDatastream (ID.str (toStringID datastreamID)) (some thing, none),
         Call.GetLocationsByThing thing.ID ([], cnt, e)]
    ∧ ∀ c ∈ (CopyLocationToFoi db datastreamID w).2.trace.drop w.trace.length,
        c.isPostFoi = false ∧ c.isWrite = false := by
  have hrun : CopyLocationToFoi db datastreamID w
      = (Outcome.returned
          ("", some (Err.conflict (Err.new "No location found for datastream.Thing"))),
         { st := s3, trace := w.trace ++
            [Call.GetDatastream (ID.str (toStringID datastreamID)) (d, none),
             Call.GetThingByDatastream (ID.str (toStringID datastreamID)) (some thing, none),
             Call.GetLocationsByThing thing.ID ([], cnt, e)] }) := by
    cases e <;>
      simp [CopyLocationToFoi, GetLocationByDatastreamID, invoke, hD, hT, hL]
  rw [hrun]
  refine ⟨rfl, rfl, rfl, ?_⟩
  intro c hc
  simp at hc
  rcases hc with h | h | h <;> subst h <;> exact ⟨rfl, rfl⟩

/-- C10 (amended): when the store's Datastream lookup fails,
`GetLocationByDatastreamID` returns the error "Datastream not found", and
`CopyLocationToFoi`, which discards that error, returns the empty identifier
with the conflict error "No location found for datastream.Thing"; the
Datastream lookup is the only call made. -/
theorem CopyLocationToFoi_datastream_missing {σ : Type} (db : Database σ) (datastreamID : ID)
    (w : World σ) (d : Option Datastream) (err : Err) (s1 : σ)
    (hD : db.GetDatastream (ID.str (toStringID datastreamID)) w.st = ((d, some err), s1)) :
    (GetLocationByDatastreamID db datastreamID w).1
        = Outcome.returned (none, some (Err.new "Datastream not found"))
    ∧ (CopyLocationToFoi db datastreamID w).1 = Outcome.returned
        ("", some (Err.conflict (Err.new "No location found for datastream.Thing")))
    ∧ (CopyLocationToFoi db datastreamID w).2.st = s1
    ∧ (CopyLocationToFoi db datastreamID w).2.trace = w.trace ++
        [Call.GetDatastream (ID.str (toStringID datastreamID)) (d, some err)] := by
  simp [CopyLocationToFoi, GetLocationByDatastreamID, invoke, hD]

/-! ## Theorems: the write path -/

/-- C1: if `ContainsMandatoryParams` reports errors, or it passes and the store
answers that the Observation's Datastream does not exist, `PostObservation`
returns no Observation and a non-empty error list (the validator's list with
the world untouched in the first case; the single bad-request error after the
single `DatastreamExists` call in the second), and none of the calls it made is
a write (`PostFeatureOfInterest`, `PostObservation`, the standalone
FeatureOfInterest creation) or a publish. -/
theorem PostObservation_rejects_without_writes {σ : Type} (a : APIv1 σ) (o : Observation)
    (w : World σ)
    (h : (∃ errs, a.ContainsMandatoryParams o = some errs ∧ errs ≠ [])
       ∨ (a.ContainsMandatoryParams o = none ∧ ∃ d, o.Datastream = some d
            ∧ (a.db.DatastreamExists (a.ToIntID d.ID).1 w.st).1 = false)) :
    ∃ errs, (PostObservation a o w).1 = Outcome.returned (none, some errs)
      ∧ errs ≠ []
      ∧ (∀ v, a.ContainsMandatoryParams o = some v →
            errs = v ∧ (PostObservation a o w).2.st = w.st
              ∧ (PostObservation a o w).2.trace = w.trace)
      ∧ (a.ContainsMandatoryParams o = none → ∀ d, o.Datastream = some d →
            errs = [Err.badRequest (Err.new
              ("Datastream " ++ toString (a.ToIntID d.ID).1 ++ " does not exist."))]
            ∧ (PostObservation a o w).2.trace
                = w.trace ++ [Call.DatastreamExists (a.ToIntID d.ID).1 false])
      ∧ ∀ c ∈ (PostObservation a o w).2.trace.drop w.trace.length,
          c.isWrite = false ∧ c.isPublish = false := by
  rcases h with ⟨errs, hv, hne⟩ | ⟨hv, d, hd, hex⟩
  · refine ⟨errs, ?_, hne, ?_, ?_, ?_⟩
    · simp [PostObservation, hv]
    · intro v hv2
      rw [hv] at hv2
      cases hv2
      simp [PostObservation, hv]
    · intro hv2
      rw [hv] at hv2
      cases hv2
    · simp [PostObservation, hv]
  · refine ⟨[Err.badRequest (Err.new
      ("Datastream " ++ toString (a.ToIntID d.ID).1 ++ " does not exist."))], ?_, ?_, ?_, ?_, ?_⟩
    · simp [PostObservation, hv, hd, invoke, hex]
    · simp
    · intro v hv2
      rw [hv] at hv2
      cases hv2
    · intro _ d2 hd2
      rw [hd] at hd2
      cases hd2
      simp [PostObservation, hv, hd, invoke, hex]
    · simp [PostObservation, hv, hd, invoke, hex, Call.isWrite, Call.isPublish]

/-- C5: for an Observation that passes the mandatory-field check, carries no
FeatureOfInterest and references a Datastream the store reports as existing,
if `CopyLocationToFoi` succeeds with identifier `f` and the store's persist
succeeds, then `PostObservation` returns the linked persisted Observation and
no errors, and the one Observation handed to the store's persist call carries a
FeatureOfInterest whose identifier is `f`. -/
theorem PostObservation_persists_resolved_foi {σ : Type} (a : APIv1 σ) (o : Observation)
    (w : World σ) (d : Datastream) (f : String) (no : Observation) (s1 s3 : σ)
    (w2 : World σ)
    (hV : a.ContainsMandatoryParams o = none)
    (hFoi : o.FeatureOfInterest = none)
    (hDs : o.Datastream = some d)
    (hE : a.db.DatastreamExists (a.ToIntID d.ID).1 w.st = (true, s1))
    (hR : CopyLocationToFoi a.db (ID.str (toStringID d.ID))
            { st := s1, trace := w.trace ++ [Call.DatastreamExists (a.ToIntID d.ID).1 true] }
          = (Outcome.returned (f, none), w2))
    (hP : a.db.PostObservation
            (o.setFeatureOfInterest (some (FeatureOfInterest.withID (ID.str f))))
            w2.st = ((some no, none), s3)) :
    (PostObservation a o w).1
        = Outcome.returned (some (a.SetAllLinks a.GetExternalServerURI no), none)
    ∧ ∃ persisted : Observation,
        (PostObservation a o w).2.trace.filter Call.isPersist
            = w2.trace.filter Call.isPersist ++ [Call.PostObservation persisted (some no, none)]
        ∧ persisted.FeatureOfInterest.map FeatureOfInterest.ID = some (ID.str f)
        ∧ persisted = o.setFeatureOfInterest (some (FeatureOfInterest.withID (ID.str f))) := by
  refine ⟨?_, o.setFeatureOfInterest (some (FeatureOfInterest.withID (ID.str f))),
    ?_, rfl, rfl⟩
  · simp [PostObservation, hV, hDs, invoke, hE, resolveFeatureOfInterest, hFoi, hR,
      persistAndPublish, hP]
  · simp [PostObservation, hV, hDs, invoke, hE, resolveFeatureOfInterest, hFoi, hR,
      persistAndPublish, hP, publish, Call.isPersist, List.filter_append]

/-- The calls of `GetLocationByDatastreamID` extend the trace by lookups only. -/
theorem GetLocationByDatastreamID_trace {σ : Type} (db : Database σ) (id : ID) (w : World σ) :
    ∃ added, (GetLocationByDatastreamID db id w).2.trace = w.trace ++ added
      ∧ ∀ c ∈ added, c.isPublish = false ∧ c.isPersist = false := by
  unfold GetLocationByDatastreamID
  simp only []
  repeat' split
  all_goals simp [invoke, Call.isPublish, Call.isPersist]

/-- The calls of `CopyLocationToFoi` extend the trace by lookups and at most a
FeatureOfInterest insert: no publish, no Observation persist. -/
theorem CopyLocationToFoi_trace {σ : Type} (db : Database σ) (id : ID) (w : World σ) :
    ∃ added, (CopyLocationToFoi db id w).2.trace = w.trace ++ added
      ∧ ∀ c ∈ added, c.isPublish = false ∧ c.isPersist = false := by
  obtain ⟨a0, h0, q0⟩ := GetLocationByDatastreamID_trace db id w
  have q1 : ∀ c ∈ a0, c.isPublish = false := fun c hc => (q0 c hc).1
  have q2 : ∀ c ∈ a0, c.isPersist = false := fun c hc => (q0 c hc).2
  unfold CopyLocationToFoi
  simp only []
  repeat' split
  all_goals
    simp [invoke, h0, Call.isPublish, Call.isPersist, List.append_assoc, or_imp, forall_and]
  all_goals exact ⟨q1, q2⟩

/-- The FeatureOfInterest branch of `PostObservation` makes no publish and no
Observation persist. -/
theorem resolveFeatureOfInterest_trace {σ : Type} (a : APIv1 σ) (o : Observation) (id : ID)
    (w : World σ) :
    ∃ added, (resolveFeatureOfInterest a o id w).2.trace = w.trace ++ added
      ∧ ∀ c ∈ added, c.isPublish = false ∧ c.isPersist = false := by
  obtain ⟨a0, h0, q0⟩ := CopyLocationToFoi_trace a.db (ID.str (toStringID id)) w
  have q1 : ∀ c ∈ a0, c.isPublish = false := fun c hc => (q0 c hc).1
  have q2 : ∀ c ∈ a0, c.isPersist = false := fun c hc => (q0 c hc).2
  unfold resolveFeatureOfInterest
  simp only []
  repeat' split
  all_goals
    simp [invoke, h0, Call.isPublish, Call.isPersist, List.append_assoc, or_imp, forall_and]
  all_goals exact ⟨q1, q2⟩

/-- C8: whenever `PostObservation` returns an Observation, it returns no errors
and the calls it made end with the store's persist followed by exactly two
publishes, none earlier: the first on topic `Datastreams(<id>)/Observations`
for the Observation's Datastream identifier, the second on `Observations`, both
carrying the serialization of the returned Observation, which is the persisted
Observation with its links attached.  Whenever the store's persist answers with
an error, that error is returned as the only element of the error list and no
publish is made. -/
theorem PostObservation_publishes_after_persist {σ : Type} (a : APIv1 σ) (o : Observation)
    (w : World σ) :
    (∀ r errs, (PostObservation a o w).1 = Outcome.returned (some r, errs) →
      errs = none ∧ ∃ d pre p no, o.Datastream = some d
        ∧ r = a.SetAllLinks a.GetExternalServerURI no
        ∧ (PostObservation a o w).2.trace = w.trace ++ pre ++
            [Call.PostObservation p (some no, none),
             Call.Publish ("Datastreams(" ++ toStringID d.ID ++ ")/Observations") (a.Marshal r) 0,
             Call.Publish "Observations" (a.Marshal r) 0]
        ∧ ∀ c ∈ pre, c.isPublish = false ∧ c.isPersist = false)
    ∧ (∀ p x e, Call.PostObservation p (x, some e)
          ∈ (PostObservation a o w).2.trace.drop w.trace.length →
        (PostObservation a o w).1 = Outcome.returned (none, some [e])
        ∧ ∀ c ∈ (PostObservation a o w).2.trace.drop w.trace.length, c.isPublish = false) := by
  unfold PostObservation
  cases hV : a.ContainsMandatoryParams o with
  | some err => simp
  | none =>
    cases hD : o.Datastream with
    | none => simp
    | some d =>
      simp only []
      have hE0 : (invoke (Call.DatastreamExists (a.ToIntID d.ID).1)
          (a.db.DatastreamExists (a.ToIntID d.ID).1) w).2.trace
          = w.trace ++ [Call.DatastreamExists (a.ToIntID d.ID).1
              (invoke (Call.DatastreamExists (a.ToIntID d.ID).1)
                (a.db.DatastreamExists (a.ToIntID d.ID).1) w).1] := rfl
      generalize invoke (Call.DatastreamExists (a.ToIntID d.ID).1)
          (a.db.DatastreamExists (a.ToIntID d.ID).1) w = E at hE0 ⊢
      obtain ⟨b, wE⟩ := E
      simp only [] at hE0
      cases b with
      | false => simp [hE0]
      | true =>
        rw [if_neg (by simp)]
        obtain ⟨added, hT, hQ⟩ := resolveFeatureOfInterest_trace a o d.ID wE
        generalize resolveFeatureOfInterest a o d.ID wE = res at hT ⊢
        obtain ⟨out, w1⟩ := res
        simp only [hE0] at hT
        have hQ1 : ∀ c ∈ added, c.isPublish = false := fun c hc => (hQ c hc).1
        have hQ2 : ∀ p x, Call.PostObservation p x ∉ added := by
          intro p x hmem
          have := (hQ _ hmem).2
          simp [Call.isPersist] at this
        cases out with
        | panicked =>
          simp [hT, hQ2]
        | returned ex =>
          cases ex with
          | error errs =>
            simp [hT, hQ2]
          | ok o1 =>
            simp only []
            unfold persistAndPublish
            simp only []
            have hR0 : (invoke (Call.PostObservation o1) (a.db.PostObservation o1) w1).2.trace
                = w1.trace ++ [Call.PostObservation o1
                    (invoke (Call.PostObservation o1) (a.db.PostObservation o1) w1).1] := rfl
            generalize invoke (Call.PostObservation o1) (a.db.PostObservation o1) w1 = R
              at hR0 ⊢
            obtain ⟨⟨x, e⟩, wR⟩ := R
            simp only [] at hR0 hT
            cases e with
            | some err =>
              constructor
              · intro r errs hres
                simp at hres
              · intro p x2 e2 hmem
                simp [hR0, hT, hQ2] at hmem
                obtain ⟨_, _, he⟩ := hmem
                subst he
                refine ⟨rfl, ?_⟩
                intro c hc
                simp [hR0, hT] at hc
                rcases hc with hc | hc | hc
                · subst hc
                  rfl
                · exact hQ1 c hc
                · subst hc
                  rfl
            | none =>
              cases x with
              | none => simp [hR0, hT, hQ2]
              | some no =>
                simp only []
                constructor
                · intro r errs hres
                  simp at hres
                  obtain ⟨hr, herr⟩ := hres
                  subst hr
                  refine ⟨herr.symm, d, Call.DatastreamExists (a.ToIntID d.ID).1 true :: added,
                    o1, no, rfl, rfl, ?_, ?_⟩
                  · simp [publish, hR0, hT]
                  · intro c hc
                    simp at hc
                    rcases hc with hc | hc
                    · subst hc
                      exact ⟨rfl, rfl⟩
                    · exact hQ c hc
                · intro p x e hmem
                  simp [publish, hR0, hT, hQ2] at hmem

/-! ## Theorems: path normalisation -/

/-- Lowering an ASCII byte gives an ASCII byte. -/
theorem asciiLower_lt {b : Nat} (h : b < 0x80) : asciiLower b < 0x80 := by
  unfold asciiLower
  split <;> omega

/-- Lowering leaves a byte above ASCII alone. -/
theorem asciiLower_of_ge {b : Nat} (h : 0x80 ≤ b) : asciiLower b = b := by
  unfold asciiLower
  split <;> omega

/-- A byte whose lowering is ASCII is ASCII. -/
theorem lt_of_asciiLower_lt {b : Nat} (h : asciiLower b < 0x80) : b < 0x80 := by
  by_contra hb
  rw [asciiLower_of_ge (by omega)] at h
  omega

/-- An ASCII byte decodes to itself, one byte wide. -/
theorem decodeRune_ascii {b : Nat} (rest : GoString) (h : b < 0x80) :
    decodeRune (b :: rest) = (b, 1) := by
  simp [decodeRune, h]

theorem block_error {s0 : Nat} (rest : GoString) (h : 0x80 ≤ s0) :
    Block (s0 :: rest) (RuneError, 1) := by
  refine ⟨le_refl _, by decide, ?_⟩
  intro y hy
  simp at hy
  omega

theorem block_decode2 {s0 : Nat} (rest : GoString) (h : 0xC2 ≤ s0 ∧ s0 ≤ 0xDF) :
    Block (s0 :: rest) (decode2 s0 rest) := by
  cases rest with
  | nil => exact block_error _ (by omega)
  | cons s1 r1 =>
    by_cases hc : 0x80 ≤ s1 ∧ s1 ≤ 0xBF
    · simp only [decode2, if_pos hc]
      refine ⟨by show 1 ≤ 2; omega, by show 0x80 ≤ s0 % 32 * 64 + s1 % 64; omega, ?_⟩
      intro y hy
      simp at hy
      rcases hy with hy | hy <;> omega
    · simp only [decode2, if_neg hc]
      exact block_error _ (by omega)

theorem block_decode3 {s0 lo hi : Nat} (rest : GoString) (h0 : 0xE0 ≤ s0 ∧ s0 ≤ 0xEF)
    (hlo : 0x80 ≤ lo) (hnz : s0 = 0xE0 → 0xA0 ≤ lo) (hhi : hi ≤ 0xBF) :
    Block (s0 :: rest) (decode3 s0 lo hi rest) := by
  match rest with
  | [] => exact block_error _ (by omega)
  | [_] => exact block_error _ (by omega)
  | s1 :: s2 :: r2 =>
    by_cases hc : lo ≤ s1 ∧ s1 ≤ hi ∧ 0x80 ≤ s2 ∧ s2 ≤ 0xBF
    · simp only [decode3, if_pos hc]
      refine ⟨by show 1 ≤ 3; omega, ?_, ?_⟩
      · show 0x80 ≤ s0 % 16 * 4096 + s1 % 64 * 64 + s2 % 64
        rcases Nat.eq_or_lt_of_le h0.1 with he | hl
        · have := hnz he.symm
          omega
        · omega
      · intro y hy
        simp at hy
        rcases hy with hy | hy | hy <;> omega
    · simp only [decode3, if_neg hc]
      exact block_error _ (by omega)

theorem block_decode4 {s0 lo hi : Nat} (rest : GoString) (h0 : 0xF0 ≤ s0 ∧ s0 ≤ 0xF4)
    (hlo : 0x80 ≤ lo) (hnz : s0 = 0xF0 → 0x90 ≤ lo) (hhi : hi ≤ 0xBF) :
    Block (s0 :: rest) (decode4 s0 lo hi rest) := by
  match rest with
  | [] => exact block_error _ (by omega)
  | [_] => exact block_error _ (by omega)
  | [_, _] => exact block_error _ (by omega)
  | s1 :: s2 :: s3 :: r3 =>
    by_cases hc : lo ≤ s1 ∧ s1 ≤ hi ∧ 0x80 ≤ s2 ∧ s2 ≤ 0xBF ∧ 0x80 ≤ s3 ∧ s3 ≤ 0xBF
    · simp only [decode4, if_pos hc]
      refine ⟨by show 1 ≤ 4; omega, ?_, ?_⟩
      · show 0x80 ≤ s0 % 8 * 262144 + s1 % 64 * 4096 + s2 % 64 * 64 + s3 % 64
        rcases Nat.eq_or_lt_of_le h0.1 with he | hl
        · have := hnz he.symm
          omega
        · omega
      · intro y hy
        simp at hy
        rcases hy with hy | hy | hy | hy <;> omega
    · simp only [decode4, if_neg hc]
      exact block_error _ (by omega)

/-- A byte above ASCII starts a block. -/
theorem block_decodeRune {s0 : Nat} (rest : GoString) (h : 0x80 ≤ s0) :
    Block (s0 :: rest) (decodeRune (s0 :: rest)) := by
  simp only [decodeRune]
  rw [if_neg (by omega)]
  split
  · exact block_decode2 _ (by assumption)
  split
  · exact block_decode3 _ (by omega) (by omega) (by intro; omega) (by omega)
  split
  · exact block_decode3 _ (by omega) (by omega) (by intro; omega) (by omega)
  split
  · exact block_decode3 _ (by omega) (by omega) (by intro; omega) (by omega)
  split
  · exact block_decode4 _ (by omega) (by omega) (by intro; omega) (by omega)
  split
  · exact block_decode4 _ (by omega) (by omega) (by intro; omega) (by omega)
  split
  · exact block_decode4 _ (by omega) (by omega) (by intro; omega) (by omega)
  · exact block_error _ h

/-- The encoding of a rune above ASCII has no ASCII byte. -/
theorem encodeRune_ge {r : Nat} (h : 0x80 ≤ r) : ∀ y ∈ encodeRune r, 0x80 ≤ y := by
  intro y hy
  unfold encodeRune at hy
  rw [if_neg (by omega)] at hy
  split at hy
  · simp at hy
    rcases hy with hy | hy <;> omega
  split at hy
  · simp at hy
    rcases hy with hy | hy | hy <;> omega
  split at hy
  · simp at hy
    rcases hy with hy | hy | hy <;> omega
  · simp at hy
    rcases hy with hy | hy | hy | hy <;> omega

theorem encodeRune_two {s0 s1 : Nat} (h : 0xC2 ≤ s0 ∧ s0 ≤ 0xDF) (hc : 0x80 ≤ s1 ∧ s1 ≤ 0xBF) :
    encodeRune (s0 % 32 * 64 + s1 % 64) = [s0, s1] := by
  unfold encodeRune
  rw [if_neg (by omega), if_pos (by omega)]
  congr 1
  · omega
  · congr 1
    omega

theorem encodeRune_three {s0 s1 s2 lo hi : Nat} (h0 : 0xE0 ≤ s0 ∧ s0 ≤ 0xEF)
    (hnz : s0 = 0xE0 → 0xA0 ≤ lo) (hsur : s0 = 0xED → hi ≤ 0x9F)
    (hc : lo ≤ s1 ∧ s1 ≤ hi ∧ 0x80 ≤ s2 ∧ s2 ≤ 0xBF) (hlo : 0x80 ≤ lo) (hhi : hi ≤ 0xBF) :
    encodeRune (s0 % 16 * 4096 + s1 % 64 * 64 + s2 % 64) = [s0, s1, s2] := by
  have hge : 0x800 ≤ s0 % 16 * 4096 + s1 % 64 * 64 + s2 % 64 := by
    rcases Nat.eq_or_lt_of_le h0.1 with he | hl
    · have := hnz he.symm
      omega
    · omega
  have hns : ¬ (0xD800 ≤ s0 % 16 * 4096 + s1 % 64 * 64 + s2 % 64
      ∧ s0 % 16 * 4096 + s1 % 64 * 64 + s2 % 64 ≤ 0xDFFF) := by
    by_cases he : s0 = 0xED
    · have := hsur he
      omega
    · omega
  unfold encodeRune
  rw [if_neg (by omega), if_neg (by omega), if_neg (by omega), if_pos (by omega)]
  congr 1
  · omega
  · congr 1
    · omega
    · congr 1
      omega

theorem encodeRune_four {s0 s1 s2 s3 lo hi : Nat} (h0 : 0xF0 ≤ s0 ∧ s0 ≤ 0xF4)
    (hnz : s0 = 0xF0 → 0x90 ≤ lo) (hmax : s0 = 0xF4 → hi ≤ 0x8F)
    (hc : lo ≤ s1 ∧ s1 ≤ hi ∧ 0x80 ≤ s2 ∧ s2 ≤ 0xBF ∧ 0x80 ≤ s3 ∧ s3 ≤ 0xBF)
    (hlo : 0x80 ≤ lo) (hhi : hi ≤ 0xBF) :
    encodeRune (s0 % 8 * 262144 + s1 % 64 * 4096 + s2 % 64 * 64 + s3 % 64)
      = [s0, s1, s2, s3] := by
  have hge : 0x10000 ≤ s0 % 8 * 262144 + s1 % 64 * 4096 + s2 % 64 * 64 + s3 % 64 := by
    rcases Nat.eq_or_lt_of_le h0.1 with he | hl
    · have := hnz he.symm
      omega
    · omega
  have hle : s0 % 8 * 262144 + s1 % 64 * 4096 + s2 % 64 * 64 + s3 % 64 ≤ 0x10FFFF := by
    by_cases he : s0 = 0xF4
    · have := hmax he
      omega
    · omega
  unfold encodeRune
  rw [if_neg (by omega), if_neg (by omega), if_neg (by omega), if_neg (by omega)]
  congr 1
  · omega
  · congr 1
    · omega
    · congr 1
      · omega
      · congr 1
        omega

theorem roundtrip_decode2 {s0 : Nat} (rest : GoString) (h : 0xC2 ≤ s0 ∧ s0 ≤ 0xDF)
    (hw : 2 ≤ (decode2 s0 rest).2) :
    encodeRune (decode2 s0 rest).1 = (s0 :: rest).take (decode2 s0 rest).2 := by
  cases rest with
  | nil => simp [decode2] at hw
  | cons s1 r1 =>
    by_cases hc : 0x80 ≤ s1 ∧ s1 ≤ 0xBF
    · simp only [decode2, if_pos hc]
      rw [encodeRune_two h hc]
      rfl
    · simp [decode2, if_neg hc] at hw

theorem roundtrip_decode3 {s0 lo hi : Nat} (rest : GoString) (h0 : 0xE0 ≤ s0 ∧ s0 ≤ 0xEF)
    (hnz : s0 = 0xE0 → 0xA0 ≤ lo) (hsur : s0 = 0xED → hi ≤ 0x9F) (hlo : 0x80 ≤ lo)
    (hhi : hi ≤ 0xBF) (hw : 2 ≤ (decode3 s0 lo hi rest).2) :
    encodeRune (decode3 s0 lo hi rest).1 = (s0 :: rest).take (decode3 s0 lo hi rest).2 := by
  match rest with
  | [] => simp [decode3] at hw
  | [_] => simp [decode3] at hw
  | s1 :: s2 :: r2 =>
    by_cases hc : lo ≤ s1 ∧ s1 ≤ hi ∧ 0x80 ≤ s2 ∧ s2 ≤ 0xBF
    · simp only [decode3, if_pos hc]
      rw [encodeRune_three h0 hnz hsur hc hlo hhi]
      rfl
    · simp [decode3, if_neg hc] at hw

theorem roundtrip_decode4 {s0 lo hi : Nat} (rest : GoString) (h0 : 0xF0 ≤ s0 ∧ s0 ≤ 0xF4)
    (hnz : s0 = 0xF0 → 0x90 ≤ lo) (hmax : s0 = 0xF4 → hi ≤ 0x8F) (hlo : 0x80 ≤ lo)
    (hhi : hi ≤ 0xBF) (hw : 2 ≤ (decode4 s0 lo hi rest).2) :
    encodeRune (decode4 s0 lo hi rest).1 = (s0 :: rest).take (decode4 s0 lo hi rest).2 := by
  match rest with
  | [] => simp [decode4] at hw
  | [_] => simp [decode4] at hw
  | [_, _] => simp [decode4] at hw
  | s1 :: s2 :: s3 :: r3 =>
    by_cases hc : lo ≤ s1 ∧ s1 ≤ hi ∧ 0x80 ≤ s2 ∧ s2 ≤ 0xBF ∧ 0x80 ≤ s3 ∧ s3 ≤ 0xBF
    · simp only [decode4, if_pos hc]
      rw [encodeRune_four h0 hnz hmax hc hlo hhi]
      rfl
    · simp [decode4, if_neg hc] at hw

/-- Re-encoding the rune of a validly encoded multi-byte block gives back its
bytes: copying an unchanged block, as `strings.Map` does, and writing its rune
again are the same. -/
theorem encodeRune_decodeRune (s : GoString) (hw : 2 ≤ (decodeRune s).2) :
    encodeRune (decodeRune s).1 = s.take (decodeRune s).2 := by
  cases s with
  | nil => simp [decodeRune] at hw
  | cons s0 rest =>
    simp only [decodeRune] at hw ⊢
    split at hw
    · simp at hw
    rw [if_neg (by assumption)]
    split at hw
    · rw [if_pos (by assumption)]
      exact roundtrip_decode2 _ (by assumption) hw
    rw [if_neg (by assumption)]
    split at hw
    · rw [if_pos (by assumption)]
      exact roundtrip_decode3 _ (by omega) (by intro; omega) (by intro; omega) (by omega)
        (by omega) hw
    rw [if_neg (by assumption)]
    split at hw
    · rw [if_pos (by assumption)]
      exact roundtrip_decode3 _ (by omega) (by intro; omega) (by intro; omega) (by omega)
        (by omega) hw
    rw [if_neg (by assumption)]
    split at hw
    · rw [if_pos (by assumption)]
      exact roundtrip_decode3 _ (by omega) (by intro; omega) (by intro; omega) (by omega)
        (by omega) hw
    rw [if_neg (by assumption)]
    split at hw
    · rw [if_pos (by assumption)]
      exact roundtrip_decode4 _ (by omega) (by intro; omega) (by intro; omega) (by omega)
        (by omega) hw
    rw [if_neg (by assumption)]
    split at hw
    · rw [if_pos (by assumption)]
      exact roundtrip_decode4 _ (by omega) (by intro; omega) (by intro; omega) (by omega)
        (by omega) hw
    rw [if_neg (by assumption)]
    split at hw
    · rw [if_pos (by assumption)]
      exact roundtrip_decode4 _ (by omega) (by intro; omega) (by intro; omega) (by omega)
        (by omega) hw
    · simp at hw

/-- A word that shares no byte with a block begins behind the block if it
occurs in the block followed by more. -/
theorem infix_append_of_disjoint {w E X : GoString} (hE : ∀ e ∈ E, e ∉ w) (hw : w ≠ []) :
    w <:+: E ++ X ↔ w <:+: X := by
  induction E with
  | nil => simp
  | cons e E ih =>
    have ih := ih (fun x hx => hE x (List.mem_cons_of_mem _ hx))
    rw [List.cons_append, List.infix_cons_iff, ih]
    constructor
    · rintro (hp | hi)
      · exfalso
        cases w with
        | nil => exact hw rfl
        | cons c w =>
          have hc : c = e := (List.cons_prefix_cons.mp hp).1
          exact hE e (List.mem_cons_self _ _) (hc ▸ List.mem_cons_self _ _)
      · exact hi
    · exact Or.inr

/-- What `strings.Map` writes for an ASCII rune under a mapping that lowers
ASCII. -/
theorem writeRune_ascii {m : Nat → Int} (hm : ∀ c, c < 0x80 → m c = ((asciiLower c : Nat) : Int))
    {b : Nat} (h : b < 0x80) : writeRune (m b) = [asciiLower b] := by
  have hl := asciiLower_lt h
  rw [hm b h]
  unfold writeRune
  rw [if_neg (by omega), if_pos (by omega)]
  simp

/-- One step of the loop of `strings.Map` on an ASCII byte. -/
theorem mapRunes_ascii_cons {m : Nat → Int}
    (hm : ∀ c, c < 0x80 → m c = ((asciiLower c : Nat) : Int)) (fuel : Nat) {b : Nat}
    (s : GoString) (h : b < 0x80) :
    mapRunes m (fuel + 1) (b :: s) = asciiLower b :: mapRunes m fuel s := by
  simp [mapRunes, decodeRune_ascii s h, writeRune_ascii hm h]

/-- What is written for a rune above ASCII shares no byte with an ASCII word
none of whose bytes the rune is mapped to. -/
theorem writeRune_disjoint {r : Int} {w : GoString} (hw : ∀ y ∈ w, y < 0x80)
    (h0 : 0 ≤ r) (hr : ∀ y ∈ w, r ≠ (y : Int)) : ∀ e ∈ writeRune r, e ∉ w := by
  intro e he hmem
  unfold writeRune at he
  rw [if_neg (by omega)] at he
  split at he
  · simp at he
    subst he
    exact hr _ hmem (Int.toNat_of_nonneg h0).symm
  · have := encodeRune_ge (r := r.toNat) (by omega) e he
    have := hw e hmem
    omega

/-- On a string of ASCII bytes the loop of `strings.Map` lowers byte by byte. -/
theorem mapRunes_ascii {m : Nat → Int}
    (hm : ∀ c, c < 0x80 → m c = ((asciiLower c : Nat) : Int)) :
    ∀ (fuel : Nat) (s : GoString), s.length ≤ fuel → (∀ y ∈ s, y < 0x80) →
      mapRunes m fuel s = s.map asciiLower := by
  intro fuel
  induction fuel with
  | zero =>
    intro s hl _
    have : s = [] := List.length_eq_zero.mp (Nat.le_zero.mp hl)
    subst this
    rfl
  | succ fuel ih =>
    intro s hl hs
    cases s with
    | nil => rfl
    | cons b s =>
      rw [mapRunes_ascii_cons hm fuel s (hs b (List.mem_cons_self _ _)),
        ih s (by simpa using hl) (fun y hy => hs y (List.mem_cons_of_mem _ hy))]
      rfl

/-- Under a mapping that lowers ASCII, `strings.ToLower` is `strings.Map` on
every string: its ASCII branch is a shortcut. -/
theorem stringsToLower_eq_map (caseRanges : List CaseRange) (s : GoString) :
    stringsToLower caseRanges s = stringsMap (unicodeToLower caseRanges) s := by
  unfold stringsToLower
  split
  · rename_i h
    unfold stringsMap
    have hm : ∀ c, c < 0x80 → unicodeToLower caseRanges c = ((asciiLower c : Nat) : Int) := by
      intro c hc
      simp [unicodeToLower, Nat.le_of_lt_succ hc]
    have hs : ∀ y ∈ s, y < 0x80 := by
      intro y hy
      simpa using (List.all_eq_true.mp h) y hy
    rw [mapRunes_ascii hm _ s (le_refl _) hs]
  · rfl

/-- What is written for a non-negative rune is not empty. -/
theorem writeRune_ne_nil {r : Int} (h0 : 0 ≤ r) : writeRune r ≠ [] := by
  unfold writeRune
  rw [if_neg (by omega)]
  split
  · simp
  · unfold encodeRune
    repeat' split
    all_goals simp

/-- A string is its first block followed by the rest. -/
theorem take_drop_decode (s : GoString) :
    s.take (decodeRune s).2 ++ s.drop (decodeRune s).2 = s :=
  List.take_append_drop _ _

/-- Behind a block the string is shorter. -/
theorem length_drop_block {b : Nat} (s : GoString) (fuel : Nat)
    (hl : (b :: s).length ≤ fuel + 1) (hb : 1 ≤ (decodeRune (b :: s)).2) :
    ((b :: s).drop (decodeRune (b :: s)).2).length ≤ fuel := by
  rw [List.length_drop]
  simp only [List.length_cons] at hl ⊢
  omega

/-- A casing of an ASCII word found at the start of a string is found lowered
at the start of what the loop of `strings.Map` writes. -/
theorem prefix_mapRunes_of_casing {m : Nat → Int}
    (hm : ∀ c, c < 0x80 → m c = ((asciiLower c : Nat) : Int)) :
    ∀ (fuel : Nat) (s q : GoString), s.length ≤ fuel →
      (∀ y ∈ q.map asciiLower, y < 0x80) → q <+: s →
      q.map asciiLower <+: mapRunes m fuel s := by
  intro fuel
  induction fuel with
  | zero =>
    intro s q hl _ hq
    have hs : s = [] := List.length_eq_zero.mp (Nat.le_zero.mp hl)
    subst hs
    have : q = [] := List.prefix_nil.mp hq
    subst this
    exact List.nil_prefix
  | succ fuel ih =>
    intro s q hl hw hq
    cases q with
    | nil => exact List.nil_prefix
    | cons c q =>
      cases s with
      | nil => simp at hq
      | cons b s =>
        obtain ⟨hcb, hqs⟩ := List.cons_prefix_cons.mp hq
        subst hcb
        have hc : c < 0x80 :=
          lt_of_asciiLower_lt (hw _ (by simp))
        rw [mapRunes_ascii_cons hm fuel s hc, List.map_cons, List.cons_prefix_cons]
        refine ⟨rfl, ih s q (by simpa using hl) ?_ hqs⟩
        intro y hy
        exact hw y (by simp only [List.map_cons]; exact List.mem_cons_of_mem _ hy)

/-- An ASCII word at the start of what the loop of `strings.Map` writes is the
lowering of a casing of it at the start of the string, when no rune above ASCII
is mapped to a byte of the word or below zero. -/
theorem casing_of_prefix_mapRunes {m : Nat → Int}
    (hm : ∀ c, c < 0x80 → m c = ((asciiLower c : Nat) : Int)) :
    ∀ (fuel : Nat) (s w : GoString), s.length ≤ fuel → (∀ y ∈ w, y < 0x80) →
      (∀ c, 0x80 ≤ c → 0 ≤ m c ∧ ∀ y ∈ w, m c ≠ (y : Int)) →
      w <+: mapRunes m fuel s → ∃ q, q <+: s ∧ q.map asciiLower = w := by
  intro fuel
  induction fuel with
  | zero =>
    intro s w _ _ _ hp
    have : w = [] := List.prefix_nil.mp hp
    subst this
    exact ⟨[], List.nil_prefix, rfl⟩
  | succ fuel ih =>
    intro s w hl hw hH hp
    cases w with
    | nil => exact ⟨[], List.nil_prefix, rfl⟩
    | cons c w =>
      cases s with
      | nil => simp [mapRunes] at hp
      | cons b s =>
        by_cases hb : b < 0x80
        · rw [mapRunes_ascii_cons hm fuel s hb, List.cons_prefix_cons] at hp
          obtain ⟨hc, hp⟩ := hp
          obtain ⟨q, hq, hqw⟩ := ih s w (by simpa using hl)
            (fun y hy => hw y (List.mem_cons_of_mem _ hy))
            (fun x hx => ⟨(hH x hx).1, fun y hy => (hH x hx).2 y (List.mem_cons_of_mem _ hy)⟩)
            hp
          exact ⟨b :: q, List.cons_prefix_cons.mpr ⟨rfl, hq⟩, by simp [hqw, hc]⟩
        · exfalso
          obtain ⟨_, hr, _⟩ := block_decodeRune s (Nat.le_of_not_lt hb)
          have hdis := writeRune_disjoint hw (hH _ hr).1 (hH _ hr).2
          have hne := writeRune_ne_nil (hH _ hr).1
          simp only [mapRunes] at hp
          cases hE : writeRune (m (decodeRune (b :: s)).1) with
          | nil => exact hne hE
          | cons e E =>
            rw [hE, List.cons_append, List.cons_prefix_cons] at hp
            exact hdis e (by rw [hE]; exact List.mem_cons_self _ _)
              (hp.1 ▸ List.mem_cons_self _ _)

/-- A casing of a non-empty ASCII word found in a string is found lowered in
what the loop of `strings.Map` writes, whatever the case table. -/
theorem infix_mapRunes_of_casing {m : Nat → Int}
    (hm : ∀ c, c < 0x80 → m c = ((asciiLower c : Nat) : Int)) :
    ∀ (fuel : Nat) (s q : GoString), s.length ≤ fuel → q ≠ [] →
      (∀ y ∈ q.map asciiLower, y < 0x80) → q <:+: s →
      q.map asciiLower <:+: mapRunes m fuel s := by
  intro fuel
  induction fuel with
  | zero =>
    intro s q hl hne _ hq
    have hs : s = [] := List.length_eq_zero.mp (Nat.le_zero.mp hl)
    subst hs
    exact absurd (List.infix_nil.mp hq) hne
  | succ fuel ih =>
    intro s q hl hne hw hq
    cases s with
    | nil => exact absurd (List.infix_nil.mp hq) hne
    | cons b s =>
      by_cases hb : b < 0x80
      · rcases List.infix_cons_iff.mp hq with hp | hi
        · exact (prefix_mapRunes_of_casing hm (fuel + 1) (b :: s) q hl hw hp).isInfix
        · rw [mapRunes_ascii_cons hm fuel s hb]
          exact List.infix_cons (ih s q (by simpa using hl) hne hw hi)
      · obtain ⟨hd, _, htake⟩ := block_decodeRune s (Nat.le_of_not_lt hb)
        have hqa : ∀ y ∈ q, y < 0x80 := fun y hy =>
          lt_of_asciiLower_lt (hw _ (List.mem_map_of_mem _ hy))
        have hdis : ∀ e ∈ (b :: s).take (decodeRune (b :: s)).2, e ∉ q := by
          intro e he hmem
          have := htake e he
          have := hqa e hmem
          omega
        rw [← take_drop_decode (b :: s)] at hq
        have hq2 := (infix_append_of_disjoint hdis hne).mp hq
        have := ih _ q (length_drop_block s fuel hl hd) hne hw hq2
        simp only [mapRunes]
        exact this.trans (List.suffix_append _ _).isInfix

/-- A non-empty ASCII word found in what the loop of `strings.Map` writes is
the lowering of a casing of it found in the string, when no rune above ASCII is
mapped to a byte of the word or below zero. -/
theorem casing_of_infix_mapRunes {m : Nat → Int}
    (hm : ∀ c, c < 0x80 → m c = ((asciiLower c : Nat) : Int)) (w : GoString) (hne : w ≠ [])
    (hw : ∀ y ∈ w, y < 0x80)
    (hH : ∀ c, 0x80 ≤ c → 0 ≤ m c ∧ ∀ y ∈ w, m c ≠ (y : Int)) :
    ∀ (fuel : Nat) (s : GoString), s.length ≤ fuel →
      w <:+: mapRunes m fuel s → ∃ q, q <:+: s ∧ q.map asciiLower = w := by
  intro fuel
  induction fuel with
  | zero =>
    intro s _ hi
    exact absurd (List.infix_nil.mp hi) hne
  | succ fuel ih =>
    intro s hl hi
    cases s with
    | nil => exact absurd (List.infix_nil.mp (by simpa [mapRunes] using hi)) hne
    | cons b s =>
      by_cases hb : b < 0x80
      · rw [mapRunes_ascii_cons hm fuel s hb] at hi
        rcases List.infix_cons_iff.mp hi with hp | hi2
        · rw [← mapRunes_ascii_cons hm fuel s hb] at hp
          obtain ⟨q, hq, hqw⟩ := casing_of_prefix_mapRunes hm (fuel + 1) (b :: s) w hl hw hH hp
          exact ⟨q, hq.isInfix, hqw⟩
        · obtain ⟨q, hq, hqw⟩ := ih s (by simpa using hl) hi2
          exact ⟨q, List.infix_cons hq, hqw⟩
      · obtain ⟨hd, hr, _⟩ := block_decodeRune s (Nat.le_of_not_lt hb)
        have hdis := writeRune_disjoint hw (hH _ hr).1 (hH _ hr).2
        simp only [mapRunes] at hi
        have hi2 := (infix_append_of_disjoint hdis hne).mp hi
        obtain ⟨q, hq, hqw⟩ := ih _ (length_drop_block s fuel hl hd) hi2
        refine ⟨q, ?_, hqw⟩
        rw [← take_drop_decode (b :: s)]
        obtain ⟨u, v, huv⟩ := hq
        exact ⟨(b :: s).take (decodeRune (b :: s)).2 ++ u, v, by simp [← huv]⟩

/-- The ASCII bytes of a string come out lowered and in order in what the loop
of `strings.Map` writes, whatever the case table. -/
theorem ascii_sublist_mapRunes {m : Nat → Int}
    (hm : ∀ c, c < 0x80 → m c = ((asciiLower c : Nat) : Int)) :
    ∀ (fuel : Nat) (s : GoString), s.length ≤ fuel →
      ((s.filter (fun y => decide (y < 0x80))).map asciiLower).Sublist (mapRunes m fuel s) := by
  intro fuel
  induction fuel with
  | zero =>
    intro s hl
    have hs : s = [] := List.length_eq_zero.mp (Nat.le_zero.mp hl)
    subst hs
    exact List.Sublist.slnil
  | succ fuel ih =>
    intro s hl
    cases s with
    | nil => exact List.Sublist.slnil
    | cons b s =>
      by_cases hb : b < 0x80
      · rw [mapRunes_ascii_cons hm fuel s hb]
        simp only [List.filter_cons, hb, decide_True, if_true, List.map_cons]
        exact (ih s (by simpa using hl)).cons₂ _
      · obtain ⟨hd, _, htake⟩ := block_decodeRune s (Nat.le_of_not_lt hb)
        have hf : (b :: s).filter (fun y => decide (y < 0x80))
            = ((b :: s).drop (decodeRune (b :: s)).2).filter (fun y => decide (y < 0x80)) := by
          conv_lhs => rw [← take_drop_decode (b :: s)]
          rw [List.filter_append, List.filter_eq_nil_iff.mpr, List.nil_append]
          intro y hy
          have := htake y hy
          simp
          omega
        rw [hf]
        simp only [mapRunes]
        exact (ih _ (length_drop_block s fuel hl hd)).trans (List.sublist_append_right _ _)

/-- The bytes of `dashboard` are ASCII. -/
theorem dashboard_ascii : ∀ y ∈ goString "dashboard", y < 0x80 := by
  decide

/-- `unicode.ToLower` lowers ASCII by the ASCII rule, whatever the table. -/
theorem unicodeToLower_ascii (caseRanges : List CaseRange) :
    ∀ c, c < 0x80 → unicodeToLower caseRanges c = ((asciiLower c : Nat) : Int) := by
  intro c hc
  simp [unicodeToLower, Nat.le_of_lt_succ hc]

/-- A path that contains `dashboard` in some casing has `dashboard` in its
lower-cased form, whatever the case table. -/
theorem contains_of_anyCasing (caseRanges : List CaseRange) (p : GoString)
    (hD : containsDashboardAnyCasing p) :
    stringsContains (stringsToLower caseRanges p) (goString "dashboard") = true := by
  obtain ⟨q, hq, hqw⟩ := hD
  have hne : q ≠ [] := by
    intro h0
    rw [h0] at hqw
    exact absurd hqw (by decide)
  have := infix_mapRunes_of_casing (unicodeToLower_ascii caseRanges) p.length p q (le_refl _)
    hne (by rw [hqw]; exact dashboard_ascii) hq
  rw [hqw] at this
  simpa [stringsContains, stringsToLower_eq_map, stringsMap] using this

/-- When the lower-cased form of a path has `dashboard` in it, the path
contains `dashboard` in some casing, provided the path is ASCII or the case
table keeps runes above ASCII away from the letters of `dashboard`. -/
theorem anyCasing_of_contains (caseRanges : List CaseRange) (p : GoString)
    (hK : KeepsDashboardLetters caseRanges ∨ ∀ y ∈ p, y < 0x80)
    (hT : stringsContains (stringsToLower caseRanges p) (goString "dashboard") = true) :
    containsDashboardAnyCasing p := by
  have hT2 : goString "dashboard" <:+: stringsMap (unicodeToLower caseRanges) p := by
    simpa [stringsContains, stringsToLower_eq_map] using hT
  rcases hK with hK | hA
  · exact casing_of_infix_mapRunes (unicodeToLower_ascii caseRanges) _ (by decide)
      dashboard_ascii hK p.length p (le_refl _) hT2
  · unfold stringsMap at hT2
    rw [mapRunes_ascii (unicodeToLower_ascii caseRanges) _ p (le_refl _) hA,
      List.isInfix_map_iff] at hT2
    obtain ⟨q, hq, hqw⟩ := hT2
    exact ⟨q, hq, hqw.symm⟩

/-- C7 (amended): for every request, `LowerCaseURI` serves the wrapped handler
exactly one request, equal to the one received except for the path.  A path
that contains the text `dashboard` in some casing of its letters, anywhere and
not only as a segment, is handed on untouched; any other path is handed on
lower-cased by `strings.ToLower`.  The test the code makes is containment of
`dashboard` in the lower-cased path: it holds whenever the path contains
`dashboard` in some casing, and only then for an ASCII path, or for any path
when the case table takes no rune above ASCII to a letter of `dashboard`.
Lower-casing an ASCII path adds 32 to each byte `A`..`Z` and keeps every other
byte; on any path the ASCII bytes come out so lowered and in order.  So
`/Things(1)/Datastreams` is forwarded as `/things(1)/datastreams`, and with the
library's entries for Latin-1 `/Things/CAFÉ` as `/things/café` and a path with
the invalid byte `0xFF` with that byte replaced by U+FFFD. -/
theorem LowerCaseURI_forwards_once {ω : Type} (caseRanges : List CaseRange)
    (h : Handler ω) (r : Request) (w : ω) :
    (containsDashboardAnyCasing r.URL.Path → LowerCaseURI caseRanges h r w = h r w)
    ∧ ((KeepsDashboardLetters caseRanges ∨ ∀ y ∈ r.URL.Path, y < 0x80) →
        ¬ containsDashboardAnyCasing r.URL.Path →
        LowerCaseURI caseRanges h r w
          = h { r with URL := { r.URL with Path := stringsToLower caseRanges r.URL.Path } } w)
    ∧ (stringsContains (stringsToLower caseRanges r.URL.Path) (goString "dashboard") = true →
        LowerCaseURI caseRanges h r w = h r w)
    ∧ (stringsContains (stringsToLower caseRanges r.URL.Path) (goString "dashboard") = false →
        LowerCaseURI caseRanges h r w
          = h { r with URL := { r.URL with Path := stringsToLower caseRanges r.URL.Path } } w)
    ∧ ((∀ y ∈ r.URL.Path, y < 0x80) →
        stringsToLower caseRanges r.URL.Path
          = r.URL.Path.map (fun b => if 65 ≤ b ∧ b ≤ 90 then b + 32 else b))
    ∧ ((r.URL.Path.filter (fun y => decide (y < 0x80))).map
          (fun b => if 65 ≤ b ∧ b ≤ 90 then b + 32 else b)).Sublist
        (stringsToLower caseRanges r.URL.Path)
    ∧ (∀ served, ∃ r', LowerCaseURI caseRanges recordingHandler r served = served ++ [r']
        ∧ r'.Method = r.Method ∧ r'.URL.RawQuery = r.URL.RawQuery
        ∧ (r'.URL.Path = r.URL.Path
            ∨ r'.URL.Path = stringsToLower caseRanges r.URL.Path))
    ∧ (∀ m q served, LowerCaseURI caseRanges recordingHandler
          { Method := m, URL := { Path := goString "/Things(1)/Datastreams", RawQuery := q } }
          served
        = served ++ [{ Method := m,
                       URL := { Path := goString "/things(1)/datastreams", RawQuery := q } }])
    ∧ LowerCaseURI caseRangesExcerpt recordingHandler
          { Method := "GET",
            URL := { Path := goString "/Things/CAF" ++ [0xC3, 0x89], RawQuery := "" } } []
        = [{ Method := "GET",
             URL := { Path := goString "/things/caf" ++ [0xC3, 0xA9], RawQuery := "" } }]
    ∧ LowerCaseURI caseRangesExcerpt recordingHandler
          { Method := "GET",
            URL := { Path := goString "/A" ++ [0xFF] ++ goString "B", RawQuery := "" } } []
        = [{ Method := "GET",
             URL := { Path := goString "/a" ++ [0xEF, 0xBF, 0xBD] ++ goString "b",
                      RawQuery := "" } }] := by
  refine ⟨?_, ?_, ?_, ?_, ?_, ?_, ?_, ?_, ?_, ?_⟩
  · intro hD
    simp [LowerCaseURI, contains_of_anyCasing caseRanges _ hD]
  · intro hK hD
    have hT : stringsContains (stringsToLower caseRanges r.URL.Path) (goString "dashboard")
        = false := by
      cases hc : stringsContains (stringsToLower caseRanges r.URL.Path) (goString "dashboard")
      · rfl
      · exact absurd (anyCasing_of_contains caseRanges _ hK hc) hD
    simp [LowerCaseURI, hT]
  · intro hT
    simp [LowerCaseURI, hT]
  · intro hT
    simp [LowerCaseURI, hT]
  · intro hA
    unfold stringsToLower
    rw [if_pos (List.all_eq_true.mpr (fun y hy => by simpa using hA y hy))]
    rfl
  · rw [stringsToLower_eq_map]
    exact ascii_sublist_mapRunes (unicodeToLower_ascii caseRanges) _ _ (le_refl _)
  · intro served
    unfold LowerCaseURI recordingHandler
    split
    · exact ⟨_, rfl, rfl, rfl, Or.inl rfl⟩
    · exact ⟨_, rfl, rfl, rfl, Or.inr rfl⟩
  · intro m q served
    have h1 : stringsToLower caseRanges (goString "/Things(1)/Datastreams")
        = goString "/things(1)/datastreams" := by
      unfold stringsToLower
      rw [if_pos (by decide)]
      decide
    have h2 : stringsContains (goString "/things(1)/datastreams") (goString "dashboard")
        = false := by
      decide
    simp [LowerCaseURI, recordingHandler, h1, h2]
  · decide
  · decide

/-- The case mapping leaves a rune alone or applies the delta of an entry that
holds the rune. -/
theorem toLowerCase_cases (caseRanges : List CaseRange) (c : Nat) :
    toLowerCase caseRanges c = (c : Int)
    ∨ ∃ cr ∈ caseRanges, cr.Lo ≤ c ∧ c ≤ cr.Hi
        ∧ toLowerCase caseRanges c
            = if cr.Delta.2.1 > MaxRune then ((cr.Lo + ((c - cr.Lo) / 2 * 2 + 1) : Nat) : Int)
              else (c : Int) + cr.Delta.2.1 := by
  unfold toLowerCase
  cases hf : caseRanges.find? (fun cr => decide (cr.Lo ≤ c ∧ c ≤ cr.Hi)) with
  | none => exact Or.inl rfl
  | some cr =>
    have hin := List.find?_some hf
    simp only [decide_eq_true_eq] at hin
    exact Or.inr ⟨cr, List.mem_of_find?_eq_some hf, hin.1, hin.2, rfl⟩

/-- The excerpt of the case table keeps runes above ASCII away from the letters
of `dashboard`. -/
theorem caseRangesExcerpt_keeps : KeepsDashboardLetters caseRangesExcerpt := by
  intro c hc
  have hc2 : ¬ c ≤ 0x7F := by omega
  have hmem : ∀ y ∈ goString "dashboard",
      y = 100 ∨ y = 97 ∨ y = 115 ∨ y = 104 ∨ y = 98 ∨ y = 111 ∨ y = 114 := by
    decide
  simp only [unicodeToLower, if_neg hc2]
  rcases toLowerCase_cases caseRangesExcerpt c with h | ⟨cr, hcr, hlo, hhi, h⟩
  · rw [h]
    refine ⟨by omega, ?_⟩
    intro y hy
    have := hmem y hy
    omega
  · rw [h]
    simp only [caseRangesExcerpt, List.mem_cons, List.mem_singleton, List.not_mem_nil,
      or_false] at hcr
    rcases hcr with hcr | hcr | hcr | hcr | hcr | hcr | hcr | hcr | hcr | hcr | hcr
    all_goals
      subst hcr
      dsimp only [MaxRune, UpperLower] at hlo hhi ⊢
      split
      all_goals
        refine ⟨by omega, ?_⟩
        intro y hy
        have := hmem y hy
        omega

/-! ## Theorems: reuse of the derived FeatureOfInterest -/

/-- Printing an identifier that already is a text gives that text. -/
theorem toStringID_str (s : String) : toStringID (ID.str s) = s := rfl

/-- The tail of `PostObservation` makes one persist call, on the state it was
given, and no FeatureOfInterest insert. -/
theorem persistAndPublish_calls {σ : Type} (a : APIv1 σ) (p : Observation) (id : ID)
    (w : World σ) :
    (persistAndPublish a p id w).2.st = (a.db.PostObservation p w.st).2
    ∧ ∃ added, (persistAndPublish a p id w).2.trace = w.trace ++ added
        ∧ added.filter Call.isPersist
            = [Call.PostObservation p (a.db.PostObservation p w.st).1]
        ∧ added.filter Call.isPostFoi = [] := by
  unfold persistAndPublish
  simp only []
  repeat' split
  all_goals
    refine ⟨by simp [invoke, publish], ?_⟩
    simp [invoke, publish, List.append_assoc, Call.isPersist, Call.isPostFoi]

/-- A create whose resolver finds no FeatureOfInterest for the first Location
and inserts one: the calls made and the state reached. -/
theorem PostObservation_create_run {σ : Type} (a : APIv1 σ) (o : Observation) (w : World σ)
    (d : Datastream) (dd : Option Datastream) (thing : Thing) (l : Location)
    (rest : List (Option Location)) (cnt : Int) (created : FeatureOfInterest)
    (e : Option Err) (sP : σ)
    (hV : a.ContainsMandatoryParams o = none) (hFoi : o.FeatureOfInterest = none)
    (hDs : o.Datastream = some d)
    (hE : a.db.DatastreamExists (a.ToIntID d.ID).1 w.st = (true, w.st))
    (hD : a.db.GetDatastream (ID.str (toStringID d.ID)) w.st = ((dd, none), w.st))
    (hT : a.db.GetThingByDatastream (ID.str (toStringID d.ID)) w.st
            = ((some thing, none), w.st))
    (hL : a.db.GetLocationsByThing thing.ID w.st = ((some l :: rest, cnt, none), w.st))
    (hF : a.db.GetFeatureOfInterestByLocationID l.ID w.st = ((none, e), w.st))
    (hP : a.db.PostFeatureOfInterest (ConvertLocationToFoi l) w.st
            = ((some created, none), sP)) :
    (PostObservation a o w).2.st
        = (a.db.PostObservation (o.setFeatureOfInterest
            (some (FeatureOfInterest.withID (ID.str (toStringID created.ID))))) sP).2
    ∧ ∃ added, (PostObservation a o w).2.trace = w.trace ++ added
        ∧ added.filter Call.isPersist
            = [Call.PostObservation (o.setFeatureOfInterest
                (some (FeatureOfInterest.withID (ID.str (toStringID created.ID)))))
                (a.db.PostObservation (o.setFeatureOfInterest
                  (some (FeatureOfInterest.withID (ID.str (toStringID created.ID))))) sP).1]
        ∧ added.filter Call.isPostFoi
            = [Call.PostFeatureOfInterest (ConvertLocationToFoi l) (some created, none)] := by
  obtain ⟨pre, hpre⟩ : ∃ pre : List Call, pre =
      [Call.DatastreamExists (a.ToIntID d.ID).1 true,
       Call.GetDatastream (ID.str (toStringID d.ID)) (dd, none),
       Call.GetThingByDatastream (ID.str (toStringID d.ID)) (some thing, none),
       Call.GetLocationsByThing thing.ID (some l :: rest, cnt, none),
       Call.GetFeatureOfInterestByLocationID l.ID (none, e),
       Call.PostFeatureOfInterest (ConvertLocationToFoi l) (some created, none)] := ⟨_, rfl⟩
  have hC : CopyLocationToFoi a.db (ID.str (toStringID d.ID))
      { st := w.st, trace := w.trace ++ [Call.DatastreamExists (a.ToIntID d.ID).1 true] }
      = (Outcome.returned (toStringID created.ID, none),
         { st := sP, trace := w.trace ++ pre }) := by
    simp [CopyLocationToFoi, GetLocationByDatastreamID, invoke, toStringID_str, hD, hT, hL, hF, hP, hpre]
  have hrun : PostObservation a o w = persistAndPublish a
      (o.setFeatureOfInterest (some (FeatureOfInterest.withID (ID.str (toStringID created.ID)))))
      d.ID { st := sP, trace := w.trace ++ pre } := by
    simp [PostObservation, hV, hDs, invoke, hE, resolveFeatureOfInterest, hFoi, hC]
  rw [hrun]
  obtain ⟨hst, added, htr, hper, hfoi⟩ := persistAndPublish_calls a
    (o.setFeatureOfInterest (some (FeatureOfInterest.withID (ID.str (toStringID created.ID)))))
    d.ID { st := sP, trace := w.trace ++ pre }
  refine ⟨hst, pre ++ added, ?_, ?_, ?_⟩
  · rw [htr, List.append_assoc]
  · rw [List.filter_append, hper, hpre]
    simp [Call.isPersist]
  · rw [List.filter_append, hfoi, hpre]
    simp [Call.isPostFoi]

/-- A create whose resolver finds a FeatureOfInterest for the first Location:
the calls made and the state reached. -/
theorem PostObservation_reuse_run {σ : Type} (a : APIv1 σ) (o : Observation) (w : World σ)
    (d : Datastream) (dd : Option Datastream) (thing : Thing) (l : Location)
    (rest : List (Option Location)) (cnt : Int) (found : FeatureOfInterest)
    (e : Option Err)
    (hV : a.ContainsMandatoryParams o = none) (hFoi : o.FeatureOfInterest = none)
    (hDs : o.Datastream = some d)
    (hE : a.db.DatastreamExists (a.ToIntID d.ID).1 w.st = (true, w.st))
    (hD : a.db.GetDatastream (ID.str (toStringID d.ID)) w.st = ((dd, none), w.st))
    (hT : a.db.GetThingByDatastream (ID.str (toStringID d.ID)) w.st
            = ((some thing, none), w.st))
    (hL : a.db.GetLocationsByThing thing.ID w.st = ((some l :: rest, cnt, none), w.st))
    (hF : a.db.GetFeatureOfInterestByLocationID l.ID w.st = ((some found, e), w.st)) :
    (PostObservation a o w).2.st
        = (a.db.PostObservation (o.setFeatureOfInterest
            (some (FeatureOfInterest.withID (ID.str (toStringID found.ID))))) w.st).2
    ∧ ∃ added, (PostObservation a o w).2.trace = w.trace ++ added
        ∧ added.filter Call.isPersist
            = [Call.PostObservation (o.setFeatureOfInterest
                (some (FeatureOfInterest.withID (ID.str (toStringID found.ID)))))
                (a.db.PostObservation (o.setFeatureOfInterest
                  (some (FeatureOfInterest.withID (ID.str (toStringID found.ID))))) w.st).1]
        ∧ added.filter Call.isPostFoi = [] := by
  obtain ⟨pre, hpre⟩ : ∃ pre : List Call, pre =
      [Call.DatastreamExists (a.ToIntID d.ID).1 true,
       Call.GetDatastream (ID.str (toStringID d.ID)) (dd, none),
       Call.GetThingByDatastream (ID.str (toStringID d.ID)) (some thing, none),
       Call.GetLocationsByThing thing.ID (some l :: rest, cnt, none),
       Call.GetFeatureOfInterestByLocationID l.ID (some found, e)] := ⟨_, rfl⟩
  have hC : CopyLocationToFoi a.db (ID.str (toStringID d.ID))
      { st := w.st, trace := w.trace ++ [Call.DatastreamExists (a.ToIntID d.ID).1 true] }
      = (Outcome.returned (toStringID found.ID, none),
         { st := w.st, trace := w.trace ++ pre }) := by
    simp [CopyLocationToFoi, GetLocationByDatastreamID, invoke, toStringID_str, hD, hT, hL, hF, hpre]
  have hrun : PostObservation a o w = persistAndPublish a
      (o.setFeatureOfInterest (some (FeatureOfInterest.withID (ID.str (toStringID found.ID)))))
      d.ID { st := w.st, trace := w.trace ++ pre } := by
    simp [PostObservation, hV, hDs, invoke, hE, resolveFeatureOfInterest, hFoi, hC]
  rw [hrun]
  obtain ⟨hst, added, htr, hper, hfoi⟩ := persistAndPublish_calls a
    (o.setFeatureOfInterest (some (FeatureOfInterest.withID (ID.str (toStringID found.ID)))))
    d.ID { st := w.st, trace := w.trace ++ pre }
  refine ⟨hst, pre ++ added, ?_, ?_, ?_⟩
  · rw [htr, List.append_assoc]
  · rw [List.filter_append, hper, hpre]
    simp [Call.isPersist]
  · rw [List.filter_append, hfoi, hpre]
    simp [Call.isPostFoi]

/-- C9: over a sequential store (`SequentialStore`), for an Observation with
no FeatureOfInterest on a Datastream whose Thing has a first Location for which
no FeatureOfInterest is found and whose insert the store accepts, two
consecutive `PostObservation` calls each hand the store's persist one
Observation, both carrying the FeatureOfInterest identifier the store assigned
on the insert, and make one `PostFeatureOfInterest` call in total: the first
create makes it, the second makes none. -/
theorem PostObservation_twice_one_foi {σ : Type} (a : APIv1 σ) (hS : SequentialStore a.db)
    (o : Observation) (w : World σ) (d : Datastream) (thing : Thing) (l : Location)
    (rest : List (Option Location)) (cnt : Int) (created : FeatureOfInterest)
    (hV : a.ContainsMandatoryParams o = none) (hFoi : o.FeatureOfInterest = none)
    (hDs : o.Datastream = some d)
    (hE : (a.db.DatastreamExists (a.ToIntID d.ID).1 w.st).1 = true)
    (hD : (a.db.GetDatastream (ID.str (toStringID d.ID)) w.st).1.2 = none)
    (hT : (a.db.GetThingByDatastream (ID.str (toStringID d.ID)) w.st).1 = (some thing, none))
    (hL : (a.db.GetLocationsByThing thing.ID w.st).1 = (some l :: rest, cnt, none))
    (hF : (a.db.GetFeatureOfInterestByLocationID l.ID w.st).1.1 = none)
    (hP : (a.db.PostFeatureOfInterest (ConvertLocationToFoi l) w.st).1 = (some created, none)) :
    ∃ first second p r1 r2,
      (PostObservation a o w).2.trace = w.trace ++ first
      ∧ (PostObservation a o (PostObservation a o w).2).2.trace = w.trace ++ first ++ second
      ∧ first.filter Call.isPersist = [Call.PostObservation p r1]
      ∧ second.filter Call.isPersist = [Call.PostObservation p r2]
      ∧ p.FeatureOfInterest.map FeatureOfInterest.ID = some (ID.str (toStringID created.ID))
      ∧ first.filter Call.isPostFoi
          = [Call.PostFeatureOfInterest (ConvertLocationToFoi l) (some created, none)]
      ∧ second.filter Call.isPostFoi = []
      ∧ ((first ++ second).filter Call.isPostFoi).length = 1 := by
  -- the answers of the store in the initial state, with the state they leave
  have hE0 : a.db.DatastreamExists (a.ToIntID d.ID).1 w.st = (true, w.st) :=
    Prod.ext hE (hS.exists_ro _ _)
  have hD0 : a.db.GetDatastream (ID.str (toStringID d.ID)) w.st
      = (((a.db.GetDatastream (ID.str (toStringID d.ID)) w.st).1.1, none), w.st) :=
    Prod.ext (Prod.ext rfl hD) (hS.datastream_ro _ _)
  have hT0 : a.db.GetThingByDatastream (ID.str (toStringID d.ID)) w.st
      = ((some thing, none), w.st) := Prod.ext hT (hS.thing_ro _ _)
  have hL0 : a.db.GetLocationsByThing thing.ID w.st = ((some l :: rest, cnt, none), w.st) :=
    Prod.ext hL (hS.locations_ro _ _)
  have hF0 : a.db.GetFeatureOfInterestByLocationID l.ID w.st
      = ((none, (a.db.GetFeatureOfInterestByLocationID l.ID w.st).1.2), w.st) :=
    Prod.ext (Prod.ext hF rfl) (hS.foi_ro _ _)
  have hP0 : a.db.PostFeatureOfInterest (ConvertLocationToFoi l) w.st
      = ((some created, none), (a.db.PostFeatureOfInterest (ConvertLocationToFoi l) w.st).2) :=
    Prod.ext hP rfl
  obtain ⟨hst1, first, htr1, hper1, hfoi1⟩ :=
    PostObservation_create_run a o w d _ thing l rest cnt created _ _ hV hFoi hDs hE0 hD0 hT0
      hL0 hF0 hP0
  -- the answers of the store after the first create
  obtain ⟨found, hfound, hid⟩ := hS.inserted_found (ConvertLocationToFoi l) w.st created hP hF
  obtain ⟨fE, fD, fT, fL⟩ := hS.postFoi_frame (ConvertLocationToFoi l) w.st
  obtain ⟨gE, gD, gT, gL, gF⟩ := hS.postObservation_frame
    (o.setFeatureOfInterest (some (FeatureOfInterest.withID (ID.str (toStringID created.ID)))))
    (a.db.PostFeatureOfInterest (ConvertLocationToFoi l) w.st).2
  generalize hw1 : (PostObservation a o w).2 = w1 at hst1 htr1 ⊢
  have hE1 : a.db.DatastreamExists (a.ToIntID d.ID).1 w1.st = (true, w1.st) :=
    Prod.ext (by rw [hst1, gE, fE, hE]) (hS.exists_ro _ _)
  have hD1 : a.db.GetDatastream (ID.str (toStringID d.ID)) w1.st
      = (((a.db.GetDatastream (ID.str (toStringID d.ID)) w1.st).1.1, none), w1.st) :=
    Prod.ext (Prod.ext rfl (by rw [hst1, gD, fD, hD])) (hS.datastream_ro _ _)
  have hT1 : a.db.GetThingByDatastream (ID.str (toStringID d.ID)) w1.st
      = ((some thing, none), w1.st) :=
    Prod.ext (by rw [hst1, gT, fT, hT]) (hS.thing_ro _ _)
  have hL1 : a.db.GetLocationsByThing thing.ID w1.st = ((some l :: rest, cnt, none), w1.st) :=
    Prod.ext (by rw [hst1, gL, fL, hL]) (hS.locations_ro _ _)
  have hF1 : a.db.GetFeatureOfInterestByLocationID l.ID w1.st
      = ((some found, (a.db.GetFeatureOfInterestByLocationID l.ID w1.st).1.2), w1.st) :=
    Prod.ext (Prod.ext (by rw [hst1, gF]; exact hfound) rfl) (hS.foi_ro _ _)
  obtain ⟨_, second, htr2, hper2, hfoi2⟩ :=
    PostObservation_reuse_run a o w1 d _ thing l rest cnt found _ hV hFoi hDs hE1 hD1 hT1
      hL1 hF1
  rw [hid] at hper2
  refine ⟨first, second, _, _, _, htr1, ?_, hper1, hper2, rfl, hfoi1, hfoi2, ?_⟩
  · rw [htr2, htr1]
  · rw [List.filter_append, hfoi1, hfoi2]
    rfl

/-- The in-memory store is a sequential store. -/
theorem memDb_sequential : SequentialStore memDb where
  exists_ro := fun _ _ => rfl
  datastream_ro := by
    intro id s
    simp only [memDb]
    split <;> rfl
  thing_ro := by
    intro id s
    simp only [memDb]
    split <;> rfl
  locations_ro := fun _ _ => rfl
  foi_ro := by
    intro id s
    simp only [memDb]
    split <;> rfl
  postFoi_frame := by
    intro foi s
    refine ⟨fun _ => rfl, ?_, ?_, fun _ => rfl⟩
    · intro id
      simp only [memDb]
      cases s.datastreams.lookup (toStringID id) <;> rfl
    · intro id
      simp only [memDb]
      cases s.datastreams.lookup (toStringID id) <;> rfl
  postObservation_frame := by
    intro o s
    refine ⟨fun _ => rfl, ?_, ?_, fun _ => rfl, ?_⟩
    · intro id
      simp only [memDb]
      cases s.datastreams.lookup (toStringID id) <;> rfl
    · intro id
      simp only [memDb]
      cases s.datastreams.lookup (toStringID id) <;> rfl
    · intro id
      simp only [memDb]
      cases List.find? (fun f => decide (f.OriginalLocationID = id)) s.fois <;> rfl
  inserted_found := by
    intro foi s c hP hF
    simp only [memDb] at hP hF ⊢
    have hnone : List.find? (fun f => decide (f.OriginalLocationID = foi.OriginalLocationID))
        s.fois = none := by
      cases hfind : List.find? (fun f => decide (f.OriginalLocationID = foi.OriginalLocationID))
          s.fois with
      | none => rfl
      | some f => simp [hfind] at hF
    simp only [Prod.mk.injEq, Option.some.injEq, and_true] at hP
    subst hP
    refine ⟨_, ?_, rfl⟩
    simp [List.find?_append, hnone]

/-! ## The theorems on the end-to-end scenario -/

/-- The patch theorem on the scenario: a payload carrying a Datastream is
rejected with the world untouched, and a payload carrying only a result gets
the store's answer. -/
theorem PatchObservation_deep_patch_iff_witness :
    scenarioObservation.Datastream ≠ none
    ∧ PatchObservation memAPI (ID.int 1) scenarioObservation (freshWorld scenarioStore)
        = ((none, some (Err.badRequest (Err.new "Unable to deep patch Observation"))),
            freshWorld scenarioStore)
    ∧ (PatchObservation memAPI (ID.int 1) resultPatch (freshWorld scenarioStore)).1
        = (memDb.PatchObservation (ID.int 1) resultPatch scenarioStore).1 :=
  ⟨by decide,
   (PatchObservation_deep_patch_iff memAPI (ID.int 1) scenarioObservation
      (freshWorld scenarioStore)).1.mpr (Or.inl (by decide)),
   ((PatchObservation_deep_patch_iff memAPI (ID.int 1) resultPatch
      (freshWorld scenarioStore)).2 (by decide)).1⟩

/-- The reuse theorem on the scenario store that already holds the derived
FeatureOfInterest 1: identifier `1` is returned and nothing is created. -/
theorem CopyLocationToFoi_reuses_existing_witness :
    (CopyLocationToFoi memDb (ID.int 7) (freshWorld scenarioStoreWithFoi)).1
        = Outcome.returned (toStringID (ID.int 1), none)
    ∧ (CopyLocationToFoi memDb (ID.int 7) (freshWorld scenarioStoreWithFoi)).2.st
        = scenarioStoreWithFoi :=
  have h := CopyLocationToFoi_reuses_existing memDb (ID.int 7) (freshWorld scenarioStoreWithFoi)
    (some { ID := ID.str "7" }) { ID := ID.int 1 } roofLocation [] 1
    { ID := ID.int 1, Description := "roof", EncodingType := "application/vnd.geo+json",
      Feature := "POINT(5 52)", OriginalLocationID := ID.int 3 }
    none scenarioStoreWithFoi scenarioStoreWithFoi scenarioStoreWithFoi scenarioStoreWithFoi
    (by decide) (by decide) (by decide) (by decide)
  ⟨h.1, h.2.1⟩

/-- The creation theorem on the scenario store: one FeatureOfInterest is
inserted for Location 3 and its identifier `1` is returned. -/
theorem CopyLocationToFoi_creates_one_witness :
    (CopyLocationToFoi memDb (ID.int 7) (freshWorld scenarioStore)).1
        = Outcome.returned (toStringID (ID.int 1), none)
    ∧ (CopyLocationToFoi memDb (ID.int 7) (freshWorld scenarioStore)).2.st
        = scenarioStoreWithFoi :=
  have h := CopyLocationToFoi_creates_one memDb (ID.int 7) (freshWorld scenarioStore)
    (some { ID := ID.str "7" }) { ID := ID.int 1 } roofLocation [] 1
    { ID := ID.int 1, Description := "roof", EncodingType := "application/vnd.geo+json",
      Feature := "POINT(5 52)", OriginalLocationID := ID.int 3 }
    (some (Err.notFound (Err.new "FeatureOfInterest not found")))
    scenarioStore scenarioStore scenarioStore scenarioStore scenarioStoreWithFoi
    (by decide) (by decide) (by decide) (by decide) (by decide)
  ⟨h.1, h.2.1⟩

/-- The no-location theorem on the scenario store without Locations. -/
theorem CopyLocationToFoi_no_location_witness :
    (CopyLocationToFoi memDb (ID.int 7) (freshWorld scenarioStoreNoLocation)).1
        = Outcome.returned
            ("", some (Err.conflict (Err.new "No location found for datastream.Thing")))
    ∧ (CopyLocationToFoi memDb (ID.int 7) (freshWorld scenarioStoreNoLocation)).2.st
        = scenarioStoreNoLocation :=
  have h := CopyLocationToFoi_no_location memDb (ID.int 7) (freshWorld scenarioStoreNoLocation)
    (some { ID := ID.str "7" }) { ID := ID.int 1 } 0 none
    scenarioStoreNoLocation scenarioStoreNoLocation scenarioStoreNoLocation
    (by decide) (by decide) (by decide)
  ⟨h.1, h.2.1⟩

/-- The missing-Datastream theorem on the scenario store and Datastream 8,
which the store does not hold. -/
theorem CopyLocationToFoi_datastream_missing_witness :
    (GetLocationByDatastreamID memDb (ID.int 8) (freshWorld scenarioStore)).1
        = Outcome.returned (none, some (Err.new "Datastream not found"))
    ∧ (CopyLocationToFoi memDb (ID.int 8) (freshWorld scenarioStore)).1
        = Outcome.returned
            ("", some (Err.conflict (Err.new "No location found for datastream.Thing"))) :=
  have h := CopyLocationToFoi_datastream_missing memDb (ID.int 8) (freshWorld scenarioStore)
    none (Err.notFound (Err.new "Datastream not found")) scenarioStore (by decide)
  ⟨h.1, h.2.1⟩

/-- C10 as stated fails: on the scenario store the lookup of Datastream 8
fails, yet the error `CopyLocationToFoi` returns is neither of the not-found
class nor does its text say that the datastream was not found. -/
theorem CopyLocationToFoi_datastream_missing_counterexample :
    (memDb.GetDatastream (ID.str (toStringID (ID.int 8))) scenarioStore).1.2 ≠ none
    ∧ ¬ ∃ x err, (CopyLocationToFoi memDb (ID.int 8) (freshWorld scenarioStore)).1
            = Outcome.returned (x, some err)
          ∧ ((∃ inner, err = Err.notFound inner) ∨ err.message = "Datastream not found") := by
  refine ⟨by decide, ?_⟩
  have h : (CopyLocationToFoi memDb (ID.int 8) (freshWorld scenarioStore)).1
      = Outcome.returned
          ("", some (Err.conflict (Err.new "No location found for datastream.Thing"))) := by
    decide
  rintro ⟨x, err, he, hcase⟩
  rw [h] at he
  simp only [Outcome.returned.injEq, Prod.mk.injEq, Option.some.injEq] at he
  obtain ⟨_, he⟩ := he
  subst he
  rcases hcase with ⟨inner, hi⟩ | hm
  · cases hi
  · revert hm
    decide

/-- The rejection theorem on the scenario: the Observation without a result
fails the mandatory-field check, and the scenario Observation moved to
Datastream 8 names a Datastream the store does not hold; both are rejected. -/
theorem PostObservation_rejects_without_writes_witness :
    (∃ errs, (PostObservation memAPI observationWithoutResult (freshWorld scenarioStore)).1
        = Outcome.returned (none, some errs) ∧ errs ≠ [])
    ∧ (∃ errs, (PostObservation memAPI
          { scenarioObservation with Datastream := some { ID := ID.int 8 } }
          (freshWorld scenarioStore)).1 = Outcome.returned (none, some errs) ∧ errs ≠ []) :=
  ⟨(PostObservation_rejects_without_writes memAPI observationWithoutResult
      (freshWorld scenarioStore)
      (Or.inl ⟨[Err.new "Missing mandatory parameter: Observation.result"],
        by decide, by decide⟩)).imp (fun _ h => ⟨h.1, h.2.1⟩),
   (PostObservation_rejects_without_writes memAPI
      { scenarioObservation with Datastream := some { ID := ID.int 8 } }
      (freshWorld scenarioStore)
      (Or.inr ⟨by decide, { ID := ID.int 8 }, by decide, by decide⟩)).imp
      (fun _ h => ⟨h.1, h.2.1⟩)⟩

/-- The create theorem on the scenario: the resolver answers `1`, the persist
succeeds, and the persisted Observation carries FeatureOfInterest `1`. -/
theorem PostObservation_persists_resolved_foi_witness :
    (PostObservation memAPI scenarioObservation (freshWorld scenarioStore)).1
        = Outcome.returned (some (memAPI.SetAllLinks memAPI.GetExternalServerURI
            { ID := ID.int 1, Result := some "21.5", Datastream := some { ID := ID.int 7 },
              FeatureOfInterest := some (FeatureOfInterest.withID (ID.str "1")),
              Links := [] }), none) :=
  (PostObservation_persists_resolved_foi memAPI scenarioObservation (freshWorld scenarioStore)
    { ID := ID.int 7 } "1"
    { ID := ID.int 1, Result := some "21.5", Datastream := some { ID := ID.int 7 },
      FeatureOfInterest := some (FeatureOfInterest.withID (ID.str "1")), Links := [] }
    scenarioStore
    { scenarioStoreWithFoi with
      observations := [{ ID := ID.int 1, Result := some "21.5",
                         Datastream := some { ID := ID.int 7 },
                         FeatureOfInterest := some (FeatureOfInterest.withID (ID.str "1")),
                         Links := [] }] }
    (CopyLocationToFoi memDb (ID.str (toStringID (ID.int 7)))
      { st := scenarioStore,
        trace := (freshWorld scenarioStore).trace
          ++ [Call.DatastreamExists (memAPI.ToIntID (ID.int 7)).1 true] }).2
    (by decide) (by decide) (by decide) (by decide)
    (Prod.ext (by decide) rfl) (by decide)).1

/-- The amended C7 on the management path `/Dashboard/Index`, which is served
once with its casing untouched, and on `/v1.0/Observations`, which is served
as `/v1.0/observations`. -/
theorem LowerCaseURI_forwards_once_witness :
    containsDashboardAnyCasing (goString "/Dashboard/Index")
    ∧ LowerCaseURI caseRangesExcerpt recordingHandler
        { Method := "GET", URL := { Path := goString "/Dashboard/Index", RawQuery := "" } } []
      = [{ Method := "GET", URL := { Path := goString "/Dashboard/Index", RawQuery := "" } }]
    ∧ KeepsDashboardLetters caseRangesExcerpt
    ∧ ¬ containsDashboardAnyCasing (goString "/v1.0/Observations")
    ∧ LowerCaseURI caseRangesExcerpt recordingHandler
        { Method := "GET", URL := { Path := goString "/v1.0/Observations", RawQuery := "" } } []
      = [{ Method := "GET",
           URL := { Path := goString "/v1.0/observations", RawQuery := "" } }] :=
  ⟨⟨goString "Dashboard", by decide, by decide⟩,
   (LowerCaseURI_forwards_once caseRangesExcerpt recordingHandler
      { Method := "GET", URL := { Path := goString "/Dashboard/Index", RawQuery := "" } } []).1
      ⟨goString "Dashboard", by decide, by decide⟩,
   caseRangesExcerpt_keeps,
   fun hD => absurd (contains_of_anyCasing caseRangesExcerpt _ hD) (by decide),
   ((LowerCaseURI_forwards_once caseRangesExcerpt recordingHandler
      { Method := "GET", URL := { Path := goString "/v1.0/Observations", RawQuery := "" } }
      []).2.1 (Or.inl caseRangesExcerpt_keeps)
      (fun hD => absurd (contains_of_anyCasing caseRangesExcerpt _ hD) (by decide))).trans
      (by decide)⟩

/-- C7 as stated fails: no segment of `/v1.0/Things('MyDashboard')/Datastreams`
is `dashboard` in any casing, yet the path is not forwarded lower-cased; it is
forwarded untouched. -/
theorem LowerCaseURI_segment_counterexample :
    hasDashboardSegment (goString "/v1.0/Things('MyDashboard')/Datastreams") = false
    ∧ LowerCaseURI caseRangesExcerpt recordingHandler
        { Method := "GET",
          URL := { Path := goString "/v1.0/Things('MyDashboard')/Datastreams", RawQuery := "" } }
        []
      ≠ [{ Method := "GET",
           URL := { Path := goString "/v1.0/things('mydashboard')/datastreams",
                    RawQuery := "" } }]
    ∧ LowerCaseURI caseRangesExcerpt recordingHandler
        { Method := "GET",
          URL := { Path := goString "/v1.0/Things('MyDashboard')/Datastreams", RawQuery := "" } }
        []
      = [{ Method := "GET",
           URL := { Path := goString "/v1.0/Things('MyDashboard')/Datastreams",
                    RawQuery := "" } }] := by
  decide

/-- The notification theorem on the scenario: the create succeeds, so it
returns no errors and ends with the persist and the two publishes. -/
theorem PostObservation_publishes_after_persist_witness :
    ∃ d pre p no, scenarioObservation.Datastream = some d
      ∧ (PostObservation memAPI scenarioObservation (freshWorld scenarioStore)).2.trace
          = (freshWorld scenarioStore).trace ++ pre ++
            [Call.PostObservation p (some no, none),
             Call.Publish ("Datastreams(" ++ toStringID d.ID ++ ")/Observations")
               (memAPI.Marshal (memAPI.SetAllLinks memAPI.GetExternalServerURI no)) 0,
             Call.Publish "Observations"
               (memAPI.Marshal (memAPI.SetAllLinks memAPI.GetExternalServerURI no)) 0] := by
  obtain ⟨_, d, pre, p, no, hd, hr, htr, _⟩ :=
    (PostObservation_publishes_after_persist memAPI scenarioObservation
      (freshWorld scenarioStore)).1
      { ID := ID.int 1, Result := some "21.5", Datastream := some { ID := ID.int 7 },
        FeatureOfInterest := some (FeatureOfInterest.withID (ID.str "1")),
        Links := ["http://localhost:8080/v1.0/Observations(1)"] }
      none (by decide)
  refine ⟨d, pre, p, no, hd, ?_⟩
  rw [htr, hr]

/-- The reuse theorem on the scenario: two creates of the scenario Observation
on the scenario store make one FeatureOfInterest insert in total. -/
theorem PostObservation_twice_one_foi_witness :
    ∃ first second,
      (PostObservation memAPI scenarioObservation (freshWorld scenarioStore)).2.trace
        = (freshWorld scenarioStore).trace ++ first
      ∧ (PostObservation memAPI scenarioObservation
          (PostObservation memAPI scenarioObservation (freshWorld scenarioStore)).2).2.trace
        = (freshWorld scenarioStore).trace ++ first ++ second
      ∧ ((first ++ second).filter Call.isPostFoi).length = 1 := by
  obtain ⟨first, second, _, _, _, h1, h2, _, _, _, _, _, h8⟩ :=
    PostObservation_twice_one_foi memAPI memDb_sequential scenarioObservation
      (freshWorld scenarioStore) { ID := ID.int 7 } { ID := ID.int 1 } roofLocation [] 1
      { ID := ID.int 1, Description := "roof", EncodingType := "application/vnd.geo+json",
        Feature := "POINT(5 52)", OriginalLocationID := ID.int 3 }
      (by decide) (by decide) (by decide) (by decide) (by decide) (by decide) (by decide)
      (by decide) (by decide)
  exact ⟨first, second, h1, h2, h8⟩

end Gost
